import Mathlib

/-!
# A shallow embedding of BlinkDB (src/blinkDB.cpp)

This file embeds the data model and the operations of the BlinkDB
in-memory key-value store: the four value kinds (StringType, ListType,
SetType, HashType) with their per-kind operations and their
serialize/deserialize pairs, the LRUCache, the BloomFilter, the BlinkDB
operations, the CommandHandler dispatch with its wire encodings, and the
line format of load_from_disk.

Modelling conventions:
* C++ `std::string` values are modelled as Lean `String`s viewed as
  sequences of characters; `size()` is the character count.
* `std::unordered_map` / `std::unordered_set` are modelled as
  association lists / lists; their iteration order is unspecified in
  C++ and no theorem below depends on the model's list order beyond
  what the source itself fixes.
* `std::hash<std::string>` is implementation defined, so every
  operation that consults the bloom filter is parameterised by an
  arbitrary hash function `hf : String → Nat`; the C++ behaviour is one
  instance.
* `std::stoi` and the exceptions it throws are modelled by an `Except`
  value (`CppExn.invalidArgument` / `CppExn.outOfRange`); C++ code that
  lets such an exception escape is modelled as returning `.error`.
-/

/-- `#define CACHE_SIZE 1000` from blinkDB.cpp. -/
def CACHE_SIZE : Nat := 1000

/-- `#define BLOOM_FILTER_SIZE 10000` from blinkDB.cpp. -/
def BLOOM_FILTER_SIZE : Nat := 10000

/-- The closed set of value kinds (`enum class ValueType`). -/
inductive VKind where
  | str
  | list
  | set
  | hash
deriving DecidableEq, Repr

/-- The polymorphic value stored under a key: the tagged-union view of
the `DataType` class hierarchy (StringType / ListType / SetType /
HashType). -/
inductive Value where
  | str (s : String)
  | list (elems : List String)
  | set (elems : List String)
  | hash (fields : List (String × String))
deriving DecidableEq, Repr

/-- `DataType::get_type`. -/
def Value.kind : Value → VKind
  | .str _ => .str
  | .list _ => .list
  | .set _ => .set
  | .hash _ => .hash

/-- `ListType::lindex`: negative index counts from the end, out of range
yields the empty string. -/
def ListType.lindex (elems : List String) (index : Int) : String :=
  let i := if index < 0 then (elems.length : Int) + index else index
  if i < 0 ∨ i ≥ (elems.length : Int) then "" else elems.getD i.toNat ""

/-- `ListType::lrange`: the source adjusts negative indices by adding
the length, takes `max 0` of the start and `min (len-1)` of the end,
returns empty when `start > end`, and otherwise copies the elements from
`start` to `end` inclusive. -/
def ListType.lrange (elems : List String) (start stop : Int) : List String :=
  if elems = [] then []
  else
    let len : Int := elems.length
    let s1 := if start < 0 then len + start else start
    let e1 := if stop < 0 then len + stop else stop
    let s2 := max 0 s1
    let e2 := min (len - 1) e1
    if s2 > e2 then []
    else (elems.take (e2.toNat + 1)).drop s2.toNat

/-- `LRUCache::access`: erase the key's old position if present, push it
to the front, and if the cache has grown beyond `max_size`
(= `CACHE_SIZE`) drop the least recently used tail entry from the cache
(only — the store is not consulted here). -/
def cacheAccess (k : String) (cache : List String) : List String :=
  let c1 := k :: cache.erase k
  if c1.length > CACHE_SIZE then c1.dropLast else c1

/-- `LRUCache::remove`: erase the key's entry if present. -/
def cacheRemove (k : String) (cache : List String) : List String :=
  cache.erase k

/-- `BloomFilter::add`: set the bit `hash(key) % BLOOM_FILTER_SIZE`. -/
def bloomAdd (hf : String → Nat) (bits : List Nat) (k : String) : List Nat :=
  (hf k % BLOOM_FILTER_SIZE) :: bits

/-- `BloomFilter::contains`: test the bit `hash(key) % BLOOM_FILTER_SIZE`. -/
def bloomContains (hf : String → Nat) (bits : List Nat) (k : String) : Bool :=
  bits.contains (hf k % BLOOM_FILTER_SIZE)

/-- `store[key]` lookup (`std::unordered_map::find`). -/
def storeLookup (s : List (String × Value)) (k : String) : Option Value :=
  List.lookup k s

/-- `store[key] = value`: bind `k` to `v`, replacing any previous
binding. -/
def storeSet (s : List (String × Value)) (k : String) (v : Value) :
    List (String × Value) :=
  (k, v) :: s.eraseP (fun p => p.1 == k)

/-- `store.erase(key)`. -/
def storeErase (s : List (String × Value)) (k : String) :
    List (String × Value) :=
  s.eraseP (fun p => p.1 == k)

/-- The state of a `BlinkDB` instance: the key space, the LRU cache
(front = most recently used) and the bloom filter bits. -/
structure DB where
  store : List (String × Value)
  cache : List String
  bloom : List Nat
deriving DecidableEq, Repr

/-- A freshly constructed database (no persistence file). -/
def DB.empty : DB := ⟨[], [], []⟩

/-- `BlinkDB::evict_if_needed`: only when the cache size exceeds
`CACHE_SIZE` are the oldest key's store entry and cache entry removed. -/
def evictIfNeeded (db : DB) : DB :=
  if db.cache.length > CACHE_SIZE then
    match db.cache.getLast? with
    | some oldest =>
        ⟨storeErase db.store oldest, cacheRemove oldest db.cache, db.bloom⟩
    | none => db
  else db

/-- The wrong-kind error string returned by the BlinkDB operations. -/
def wrongTypeMsg : String :=
  "WRONGTYPE Operation against a key holding the wrong kind of value"

/-- `BlinkDB::set`: overwrite with a string value, touch the cache, run
the eviction check, add to the bloom filter. -/
def dbSet (hf : String → Nat) (db : DB) (k v : String) : DB :=
  let db1 : DB :=
    ⟨storeSet db.store k (Value.str v), cacheAccess k db.cache, db.bloom⟩
  let db2 := evictIfNeeded db1
  ⟨db2.store, db2.cache, bloomAdd hf db2.bloom k⟩

/-- `BlinkDB::get`: "NULL" if the bloom filter rejects the key or it is
absent; otherwise the cache is touched first and only then is the kind
checked — a non-string kind yields the wrong-type error after the
touch. -/
def dbGet (hf : String → Nat) (db : DB) (k : String) : DB × String :=
  if bloomContains hf db.bloom k then
    match storeLookup db.store k with
    | none => (db, "NULL")
    | some w =>
        let db1 : DB := ⟨db.store, cacheAccess k db.cache, db.bloom⟩
        match w with
        | .str s => (db1, s)
        | _ => (db1, wrongTypeMsg)
  else (db, "NULL")

/-- `BlinkDB::del`: removes the store entry and the cache entry
unconditionally. -/
def dbDel (db : DB) (k : String) : DB :=
  ⟨storeErase db.store k, cacheRemove k db.cache, db.bloom⟩

/-- The kind names reported by `BlinkDB::type`. -/
def kindName : VKind → String
  | .str => "string"
  | .list => "list"
  | .set => "set"
  | .hash => "hash"

/-- `BlinkDB::type`: "none" when the bloom filter rejects the key or it
is absent, otherwise the kind name; the cache is not touched. -/
def dbTypeStr (hf : String → Nat) (db : DB) (k : String) : String :=
  if bloomContains hf db.bloom k then
    match storeLookup db.store k with
    | some w => kindName w.kind
    | none => "none"
  else "none"

/-- `BlinkDB::lpush` (with `create_list_if_needed` inlined): create an
empty list and register the key in the bloom filter when absent; fail
with the wrong-type error when the key holds another kind; otherwise
push at the front, touch, run the eviction check and report the new
length. -/
def dbLpush (hf : String → Nat) (db : DB) (k v : String) : DB × String :=
  match storeLookup db.store k with
  | some (.list l) =>
      let db1 : DB :=
        ⟨storeSet db.store k (Value.list (v :: l)), cacheAccess k db.cache,
          db.bloom⟩
      (evictIfNeeded db1, toString (v :: l).length)
  | some _ => (db, wrongTypeMsg)
  | none =>
      let db1 : DB :=
        ⟨storeSet db.store k (Value.list [v]), cacheAccess k db.cache,
          bloomAdd hf db.bloom k⟩
      (evictIfNeeded db1, toString 1)

/-- `BlinkDB::rpush`: as `lpush` but appending at the back. -/
def dbRpush (hf : String → Nat) (db : DB) (k v : String) : DB × String :=
  match storeLookup db.store k with
  | some (.list l) =>
      let db1 : DB :=
        ⟨storeSet db.store k (Value.list (l ++ [v])), cacheAccess k db.cache,
          db.bloom⟩
      (evictIfNeeded db1, toString (l ++ [v]).length)
  | some _ => (db, wrongTypeMsg)
  | none =>
      let db1 : DB :=
        ⟨storeSet db.store k (Value.list [v]), cacheAccess k db.cache,
          bloomAdd hf db.bloom k⟩
      (evictIfNeeded db1, toString 1)

/-- `BlinkDB::lpop`: "NULL" when the key is absent, wrong-type error on
another kind; otherwise pop the front, touch the cache, and when the
list became empty delete the key from both store and cache. An empty
popped string is reported as "NULL". -/
def dbLpop (db : DB) (k : String) : DB × String :=
  match storeLookup db.store k with
  | none => (db, "NULL")
  | some (.list l) =>
      let r := l.headD ""
      let l' := l.tail
      let cache1 := cacheAccess k db.cache
      if l'.length = 0 then
        (⟨storeErase db.store k, cacheRemove k cache1, db.bloom⟩,
          if r = "" then "NULL" else r)
      else
        (⟨storeSet db.store k (Value.list l'), cache1, db.bloom⟩,
          if r = "" then "NULL" else r)
  | some _ => (db, wrongTypeMsg)

/-- `BlinkDB::rpop`: as `lpop` but popping the back. -/
def dbRpop (db : DB) (k : String) : DB × String :=
  match storeLookup db.store k with
  | none => (db, "NULL")
  | some (.list l) =>
      let r := (l.getLast?).getD ""
      let l' := l.dropLast
      let cache1 := cacheAccess k db.cache
      if l'.length = 0 then
        (⟨storeErase db.store k, cacheRemove k cache1, db.bloom⟩,
          if r = "" then "NULL" else r)
      else
        (⟨storeSet db.store k (Value.list l'), cache1, db.bloom⟩,
          if r = "" then "NULL" else r)
  | some _ => (db, wrongTypeMsg)

/-- `BlinkDB::lindex`: "NULL" when absent or out of range, wrong-type
error on another kind, otherwise the element; the cache is touched. -/
def dbLindex (db : DB) (k : String) (i : Int) : DB × String :=
  match storeLookup db.store k with
  | none => (db, "NULL")
  | some (.list l) =>
      let r := ListType.lindex l i
      (⟨db.store, cacheAccess k db.cache, db.bloom⟩,
        if r = "" then "NULL" else r)
  | some _ => (db, wrongTypeMsg)

/-- `BlinkDB::llen`: "0" when absent (no touch), wrong-type error on
another kind (checked before the touch), otherwise the length. -/
def dbLlen (db : DB) (k : String) : DB × String :=
  match storeLookup db.store k with
  | none => (db, "0")
  | some (.list l) =>
      (⟨db.store, cacheAccess k db.cache, db.bloom⟩, toString l.length)
  | some _ => (db, wrongTypeMsg)

/-- The bulk-string array wire encoding `*N\r\n$len\r\nitem\r\n...`. -/
def arrayWire (items : List String) : String :=
  items.foldl
    (fun acc item =>
      acc ++ "$" ++ toString item.length ++ "\r\n" ++ item ++ "\r\n")
    ("*" ++ toString items.length ++ "\r\n")

/-- `BlinkDB::lrange`: `*0\r\n` when absent, wrong-type error on another
kind, otherwise the clamped range already wire-encoded (the cache is
touched). -/
def dbLrange (db : DB) (k : String) (s e : Int) : DB × String :=
  match storeLookup db.store k with
  | none => (db, "*0\r\n")
  | some (.list l) =>
      (⟨db.store, cacheAccess k db.cache, db.bloom⟩,
        arrayWire (ListType.lrange l s e))
  | some _ => (db, wrongTypeMsg)

/-- `BlinkDB::sadd` (with `create_set_if_needed` inlined). -/
def dbSadd (hf : String → Nat) (db : DB) (k v : String) : DB × String :=
  match storeLookup db.store k with
  | some (.set s) =>
      let added := !(s.contains v)
      let s' := if s.contains v then s else s ++ [v]
      let db1 : DB :=
        ⟨storeSet db.store k (Value.set s'), cacheAccess k db.cache, db.bloom⟩
      (evictIfNeeded db1, if added then "1" else "0")
  | some _ => (db, wrongTypeMsg)
  | none =>
      let db1 : DB :=
        ⟨storeSet db.store k (Value.set [v]), cacheAccess k db.cache,
          bloomAdd hf db.bloom k⟩
      (evictIfNeeded db1, "1")

/-- `BlinkDB::sismember`: "0" when absent (no touch), wrong-type error
on another kind, otherwise membership with a cache touch. -/
def dbSismember (db : DB) (k v : String) : DB × String :=
  match storeLookup db.store k with
  | none => (db, "0")
  | some (.set s) =>
      (⟨db.store, cacheAccess k db.cache, db.bloom⟩,
        if s.contains v then "1" else "0")
  | some _ => (db, wrongTypeMsg)

/-- `BlinkDB::srem`: remove the member, touch, and delete the key from
both store and cache when the set became empty. -/
def dbSrem (db : DB) (k v : String) : DB × String :=
  match storeLookup db.store k with
  | none => (db, "0")
  | some (.set s) =>
      let removed := s.contains v
      let s' := s.erase v
      let cache1 := cacheAccess k db.cache
      if s'.length = 0 then
        (⟨storeErase db.store k, cacheRemove k cache1, db.bloom⟩,
          if removed then "1" else "0")
      else
        (⟨storeSet db.store k (Value.set s'), cache1, db.bloom⟩,
          if removed then "1" else "0")
  | some _ => (db, wrongTypeMsg)

/-- `BlinkDB::scard`. -/
def dbScard (db : DB) (k : String) : DB × String :=
  match storeLookup db.store k with
  | none => (db, "0")
  | some (.set s) =>
      (⟨db.store, cacheAccess k db.cache, db.bloom⟩, toString s.length)
  | some _ => (db, wrongTypeMsg)

/-- `BlinkDB::smembers`: wire-encoded member array. -/
def dbSmembers (db : DB) (k : String) : DB × String :=
  match storeLookup db.store k with
  | none => (db, "*0\r\n")
  | some (.set s) =>
      (⟨db.store, cacheAccess k db.cache, db.bloom⟩, arrayWire s)
  | some _ => (db, wrongTypeMsg)

/-- `fields[field] = value` on a hash (`std::unordered_map` update). -/
def hashSet (fs : List (String × String)) (f v : String) :
    List (String × String) :=
  (f, v) :: fs.eraseP (fun p => p.1 == f)

/-- `BlinkDB::hset` (with `create_hash_if_needed` inlined). -/
def dbHset (hf : String → Nat) (db : DB) (k f v : String) : DB × String :=
  match storeLookup db.store k with
  | some (.hash fs) =>
      let isNew := (List.lookup f fs).isNone
      let db1 : DB :=
        ⟨storeSet db.store k (Value.hash (hashSet fs f v)),
          cacheAccess k db.cache, db.bloom⟩
      (evictIfNeeded db1, if isNew then "1" else "0")
  | some _ => (db, wrongTypeMsg)
  | none =>
      let db1 : DB :=
        ⟨storeSet db.store k (Value.hash [(f, v)]), cacheAccess k db.cache,
          bloomAdd hf db.bloom k⟩
      (evictIfNeeded db1, "1")

/-- `BlinkDB::hget`: an absent field (or a field bound to the empty
string) is reported as "NULL". -/
def dbHget (db : DB) (k f : String) : DB × String :=
  match storeLookup db.store k with
  | none => (db, "NULL")
  | some (.hash fs) =>
      let r := (List.lookup f fs).getD ""
      (⟨db.store, cacheAccess k db.cache, db.bloom⟩,
        if r = "" then "NULL" else r)
  | some _ => (db, wrongTypeMsg)

/-- `BlinkDB::hexists`. -/
def dbHexists (db : DB) (k f : String) : DB × String :=
  match storeLookup db.store k with
  | none => (db, "0")
  | some (.hash fs) =>
      (⟨db.store, cacheAccess k db.cache, db.bloom⟩,
        if (List.lookup f fs).isSome then "1" else "0")
  | some _ => (db, wrongTypeMsg)

/-- `BlinkDB::hdel`: remove the field, touch, and delete the key from
both store and cache when the hash became empty. -/
def dbHdel (db : DB) (k f : String) : DB × String :=
  match storeLookup db.store k with
  | none => (db, "0")
  | some (.hash fs) =>
      let removed := (List.lookup f fs).isSome
      let fs' := fs.eraseP (fun p => p.1 == f)
      let cache1 := cacheAccess k db.cache
      if fs'.length = 0 then
        (⟨storeErase db.store k, cacheRemove k cache1, db.bloom⟩,
          if removed then "1" else "0")
      else
        (⟨storeSet db.store k (Value.hash fs'), cache1, db.bloom⟩,
          if removed then "1" else "0")
  | some _ => (db, wrongTypeMsg)

/-- `BlinkDB::hlen`. -/
def dbHlen (db : DB) (k : String) : DB × String :=
  match storeLookup db.store k with
  | none => (db, "0")
  | some (.hash fs) =>
      (⟨db.store, cacheAccess k db.cache, db.bloom⟩, toString fs.length)
  | some _ => (db, wrongTypeMsg)

/-- `BlinkDB::hkeys`: wire-encoded field-name array. -/
def dbHkeys (db : DB) (k : String) : DB × String :=
  match storeLookup db.store k with
  | none => (db, "*0\r\n")
  | some (.hash fs) =>
      (⟨db.store, cacheAccess k db.cache, db.bloom⟩,
        arrayWire (fs.map Prod.fst))
  | some _ => (db, wrongTypeMsg)

/-- `BlinkDB::hvals`: wire-encoded field-value array. -/
def dbHvals (db : DB) (k : String) : DB × String :=
  match storeLookup db.store k with
  | none => (db, "*0\r\n")
  | some (.hash fs) =>
      (⟨db.store, cacheAccess k db.cache, db.bloom⟩,
        arrayWire (fs.map Prod.snd))
  | some _ => (db, wrongTypeMsg)

/-- `BlinkDB::hgetall`: `*2N\r\n` followed by alternating field/value
bulk strings. -/
def dbHgetall (db : DB) (k : String) : DB × String :=
  match storeLookup db.store k with
  | none => (db, "*0\r\n")
  | some (.hash fs) =>
      let body := fs.foldl
        (fun acc p =>
          acc ++ "$" ++ toString p.1.length ++ "\r\n" ++ p.1 ++ "\r\n" ++
            "$" ++ toString p.2.length ++ "\r\n" ++ p.2 ++ "\r\n")
        ("*" ++ toString (fs.length * 2) ++ "\r\n")
      (⟨db.store, cacheAccess k db.cache, db.bloom⟩, body)
  | some _ => (db, wrongTypeMsg)

/-- The exceptions `std::stoi` can throw. -/
inductive CppExn where
  | invalidArgument
  | outOfRange
deriving DecidableEq, Repr

/-- The whitespace class of `isspace` in the C locale (also the
delimiters of `std::istream` token extraction). -/
def isCppSpace (c : Char) : Bool :=
  c == ' ' || c == '\t' || c == '\n' || c == '\x0b' || c == '\x0c' || c == '\r'

/-- `std::stoi`: skip leading whitespace, read an optional sign and a
run of decimal digits; no digits throws `invalid_argument`, a value
outside the `int` range throws `out_of_range`; trailing characters are
ignored. -/
def stoiChars (cs : List Char) : Except CppExn Int :=
  let cs1 := cs.dropWhile isCppSpace
  let signed : Int × List Char :=
    match cs1 with
    | '-' :: t => (-1, t)
    | '+' :: t => (1, t)
    | _ => (1, cs1)
  let ds := signed.2.takeWhile Char.isDigit
  if ds = [] then .error .invalidArgument
  else
    let v : Int :=
      signed.1 * ((ds.foldl (fun a c => a * 10 + (c.toNat - 48)) 0 : Nat) : Int)
    if v > 2147483647 ∨ v < -2147483648 then .error .outOfRange else .ok v

/-- `std::stoi` on a `std::string`. -/
def stoiS (s : String) : Except CppExn Int := stoiChars s.toList

/-- Conversion of a C++ `int` (or other signed) value to `size_t`:
two's-complement wraparound modulo `2^64`. -/
def sizeT (x : Int) : Nat := (x % (2 ^ 64)).toNat

/-- `std::string::find(c, pos)`: index of the first occurrence of `c`
at or after `pos`, `none` for `npos`. -/
def strFindFrom (cs : List Char) (c : Char) (pos : Nat) : Option Nat :=
  ((cs.drop pos).findIdx? (fun x => x == c)).map (fun i => i + pos)

/-- `std::string::substr(pos, count)` for the in-range positions used
by the deserializers: the up-to-`count` characters from `pos`. -/
def substrCpp (cs : List Char) (pos count : Nat) : List Char :=
  (cs.drop pos).take count

/-- `ListType::serialize`: `L` then `<len>:<elem>,` per element. -/
def listSerialize (elems : List String) : List Char :=
  'L' :: elems.foldl
    (fun acc e => acc ++ (toString e.length).toList ++ [':'] ++ e.toList ++ [','])
    []

/-- `SetType::serialize`: `S` then `<len>:<elem>,` per element. -/
def setSerialize (elems : List String) : List Char :=
  'S' :: elems.foldl
    (fun acc e => acc ++ (toString e.length).toList ++ [':'] ++ e.toList ++ [','])
    []

/-- `HashType::serialize`: `H` then `<flen>:<field>:<vlen>:<value>,`
per entry. -/
def hashSerialize (fields : List (String × String)) : List Char :=
  'H' :: fields.foldl
    (fun acc p =>
      acc ++ (toString p.1.length).toList ++ [':'] ++ p.1.toList ++ [':'] ++
        (toString p.2.length).toList ++ [':'] ++ p.2.toList ++ [','])
    []

/-- The parse loop of `ListType::deserialize`: find the next colon, run
`std::stoi` on the length prefix (its exception propagates), take the
element, and skip past the element and the comma.  The fuel argument
only bounds the loop; every proof below runs inside it. -/
def listDeserializeAux (data : List Char) :
    Nat → Nat → List String → Except CppExn (List String)
  | 0, _, acc => .ok acc
  | fuel + 1, pos, acc =>
    if pos < data.length then
      match strFindFrom data ':' pos with
      | none => .ok acc
      | some colon =>
        match stoiChars (substrCpp data pos (colon - pos)) with
        | .error e => .error e
        | .ok len =>
          let elem := String.mk (substrCpp data (colon + 1) (sizeT len))
          listDeserializeAux data fuel (sizeT ((colon : Int) + len + 2))
            (acc ++ [elem])
    else .ok acc

/-- `ListType::deserialize`: empty or not `L`-tagged data yields the
empty list, otherwise the parse loop runs from position 1. -/
def listTypeDeserialize (data : List Char) : Except CppExn (List String) :=
  if data.head? = some 'L' then listDeserializeAux data (data.length + 1) 1 []
  else .ok []

/-- The parse loop of `SetType::deserialize` (same frame as the list
loop, inserting into a set). -/
def setDeserializeAux (data : List Char) :
    Nat → Nat → List String → Except CppExn (List String)
  | 0, _, acc => .ok acc
  | fuel + 1, pos, acc =>
    if pos < data.length then
      match strFindFrom data ':' pos with
      | none => .ok acc
      | some colon =>
        match stoiChars (substrCpp data pos (colon - pos)) with
        | .error e => .error e
        | .ok len =>
          let elem := String.mk (substrCpp data (colon + 1) (sizeT len))
          setDeserializeAux data fuel (sizeT ((colon : Int) + len + 2))
            (if elem ∈ acc then acc else acc ++ [elem])
    else .ok acc

/-- `SetType::deserialize`. -/
def setTypeDeserialize (data : List Char) : Except CppExn (List String) :=
  if data.head? = some 'S' then setDeserializeAux data (data.length + 1) 1 []
  else .ok []

/-- The parse loop of `HashType::deserialize`, exactly as written in the
source: after reading the field it searches for a colon starting at
`colon_pos1 + field_len + 1` — which is the position of the separator
colon itself — and then runs `std::stoi` on the characters strictly
between that start position and the found colon. -/
def hashDeserializeAux (data : List Char) :
    Nat → Nat → List (String × String) →
      Except CppExn (List (String × String))
  | 0, _, acc => .ok acc
  | fuel + 1, pos, acc =>
    if pos < data.length then
      match strFindFrom data ':' pos with
      | none => .ok acc
      | some colon1 =>
        match stoiChars (substrCpp data pos (colon1 - pos)) with
        | .error e => .error e
        | .ok fieldLen =>
          let field := String.mk (substrCpp data (colon1 + 1) (sizeT fieldLen))
          let vstart := sizeT ((colon1 : Int) + fieldLen + 1)
          match strFindFrom data ':' vstart with
          | none => .ok acc
          | some colon2 =>
            match stoiChars (substrCpp data vstart (colon2 - vstart)) with
            | .error e => .error e
            | .ok valueLen =>
              let value :=
                String.mk (substrCpp data (colon2 + 1) (sizeT valueLen))
              hashDeserializeAux data fuel
                (sizeT ((colon2 : Int) + valueLen + 2))
                (hashSet acc field value)
    else .ok acc

/-- `HashType::deserialize`. -/
def hashTypeDeserialize (data : List Char) :
    Except CppExn (List (String × String)) :=
  if data.head? = some 'H' then hashDeserializeAux data (data.length + 1) 1 []
  else .ok []

/-- `DataType::serialize` dispatched on the kind (`StringType`
serializes to the raw value). -/
def valueSerialize : Value → List Char
  | .str s => s.toList
  | .list l => listSerialize l
  | .set s => setSerialize s
  | .hash fs => hashSerialize fs

/-- The record-marker character written by `BlinkDB::save_to_disk`
(note: `E` for sets, while the payload itself is tagged `S`). -/
def valueTypeChar : Value → Char
  | .str _ => 'S'
  | .list _ => 'L'
  | .set _ => 'E'
  | .hash _ => 'H'

/-- One line written by `BlinkDB::save_to_disk`:
`<type-char> <key> <serialization>`. -/
def saveLine (key : String) (v : Value) : List Char :=
  valueTypeChar v :: ' ' :: key.toList ++ ' ' :: valueSerialize v

/-- The insertion done by `BlinkDB::load_from_disk` for one parsed
record: bind the key, touch the cache, add to the bloom filter. -/
def loadInsert (hf : String → Nat) (db : DB) (key : String) (w : Value) : DB :=
  ⟨storeSet db.store key w, cacheAccess key db.cache, bloomAdd hf db.bloom key⟩

/-- One iteration of the `std::getline` loop of
`BlinkDB::load_from_disk`: short lines and lines without two spaces or
with an unknown marker are skipped; otherwise the payload is
deserialized by kind (an `std::stoi` exception escapes uncaught, which
the `Except` propagates) and the record is inserted. -/
def loadLine (hf : String → Nat) (db : DB) (line : List Char) :
    Except CppExn DB :=
  if line.length < 3 then .ok db
  else
    match strFindFrom line ' ' 0 with
    | none => .ok db
    | some sp1 =>
      match strFindFrom line ' ' (sp1 + 1) with
      | none => .ok db
      | some sp2 =>
        let key := String.mk (substrCpp line (sp1 + 1) (sp2 - sp1 - 1))
        let dataPart := line.drop (sp2 + 1)
        match line.headD ' ' with
        | 'S' => .ok (loadInsert hf db key (Value.str (String.mk dataPart)))
        | 'L' =>
            (listTypeDeserialize dataPart).map
              (fun es => loadInsert hf db key (Value.list es))
        | 'E' =>
            (setTypeDeserialize dataPart).map
              (fun es => loadInsert hf db key (Value.set es))
        | 'H' =>
            (hashTypeDeserialize dataPart).map
              (fun fs => loadInsert hf db key (Value.hash fs))
        | _ => .ok db

/-- `BlinkDB::load_from_disk` on a given sequence of file lines,
starting from the empty store. -/
def loadLines (hf : String → Nat) (lines : List (List Char)) :
    Except CppExn DB :=
  lines.foldlM (fun db line => loadLine hf db line) DB.empty

/-- `::tolower` in the C locale on one character. -/
def lowerChar (c : Char) : Char :=
  if 'A' ≤ c ∧ c ≤ 'Z' then Char.ofNat (c.toNat + 32) else c

/-- `std::transform(..., ::tolower)` as applied by
`CommandHandler::process_command` to the command name. -/
def cppToLower (s : String) : String := String.mk (s.data.map lowerChar)

/-- `result.substr(0, 9)`: the first nine characters (all of them when
the string is shorter). -/
def substr9 (s : String) : String := String.mk (s.data.take 9)

/-- The response shaping shared by GET/LPOP/RPOP/LINDEX/HGET: "NULL"
becomes a null bulk, a result whose first nine characters are
`WRONGTYPE` becomes an error reply, anything else a bulk string. -/
def wrapBulk (p : DB × String) : DB × String :=
  if p.2 == "NULL" then (p.1, "$-1\r\n")
  else if substr9 p.2 == "WRONGTYPE" then (p.1, "-" ++ p.2 ++ "\r\n")
  else (p.1, "$" ++ toString p.2.length ++ "\r\n" ++ p.2 ++ "\r\n")

/-- The response shaping shared by the integer-replying commands. -/
def wrapInt (p : DB × String) : DB × String :=
  if substr9 p.2 == "WRONGTYPE" then (p.1, "-" ++ p.2 ++ "\r\n")
  else (p.1, ":" ++ p.2 ++ "\r\n")

/-- The response shaping shared by the commands whose BlinkDB method
already returns a wire-encoded array. -/
def wrapRaw (p : DB × String) : DB × String :=
  if substr9 p.2 == "WRONGTYPE" then (p.1, "-" ++ p.2 ++ "\r\n") else p

/-- The reply produced by the `catch` block when `std::stoi` throws
while parsing a numeric argument (libstdc++ reports `what() = "stoi"`). -/
def stoiErrResp (db : DB) : DB × String := (db, "-ERR stoi\r\n")

/-- The final `else` of the dispatch chain. -/
def unknownResp (db : DB) (cmd : String) : DB × String :=
  (db, "-ERR unknown command \x27" ++ cmd ++ "\x27\r\n")

/-- The `set` arm of the dispatch chain. -/
def armSet (hf : String → Nat) (db : DB) (cmd : String) (parts : List String) :
    DB × String :=
  match parts with
  | _ :: k :: v :: _ => (dbSet hf db k v, "+OK\r\n")
  | _ => unknownResp db cmd

/-- The `get` arm of the dispatch chain. -/
def armGet (hf : String → Nat) (db : DB) (cmd : String) (parts : List String) :
    DB × String :=
  match parts with
  | _ :: k :: _ => wrapBulk (dbGet hf db k)
  | _ => unknownResp db cmd

/-- The `del` arm of the dispatch chain. -/
def armDel (db : DB) (cmd : String) (parts : List String) :
    DB × String :=
  match parts with
  | _ :: k :: _ => (dbDel db k, ":1\r\n")
  | _ => unknownResp db cmd

/-- The `type` arm of the dispatch chain. -/
def armType (hf : String → Nat) (db : DB) (cmd : String) (parts : List String) :
    DB × String :=
  match parts with
  | _ :: k :: _ => (db, "+" ++ dbTypeStr hf db k ++ "\r\n")
  | _ => unknownResp db cmd

/-- The `lpush` arm of the dispatch chain. -/
def armLpush (hf : String → Nat) (db : DB) (cmd : String) (parts : List String) :
    DB × String :=
  match parts with
  | _ :: k :: v :: _ => wrapInt (dbLpush hf db k v)
  | _ => unknownResp db cmd

/-- The `rpush` arm of the dispatch chain. -/
def armRpush (hf : String → Nat) (db : DB) (cmd : String) (parts : List String) :
    DB × String :=
  match parts with
  | _ :: k :: v :: _ => wrapInt (dbRpush hf db k v)
  | _ => unknownResp db cmd

/-- The `lpop` arm of the dispatch chain. -/
def armLpop (db : DB) (cmd : String) (parts : List String) :
    DB × String :=
  match parts with
  | _ :: k :: _ => wrapBulk (dbLpop db k)
  | _ => unknownResp db cmd

/-- The `rpop` arm of the dispatch chain. -/
def armRpop (db : DB) (cmd : String) (parts : List String) :
    DB × String :=
  match parts with
  | _ :: k :: _ => wrapBulk (dbRpop db k)
  | _ => unknownResp db cmd

/-- The `lindex` arm of the dispatch chain. -/
def armLindex (db : DB) (cmd : String) (parts : List String) :
    DB × String :=
  match parts with
  | _ :: k :: i :: _ =>
    match stoiS i with
    | .error _ => stoiErrResp db
    | .ok n => wrapBulk (dbLindex db k n)
  | _ => unknownResp db cmd

/-- The `llen` arm of the dispatch chain. -/
def armLlen (db : DB) (cmd : String) (parts : List String) :
    DB × String :=
  match parts with
  | _ :: k :: _ => wrapInt (dbLlen db k)
  | _ => unknownResp db cmd

/-- The `lrange` arm of the dispatch chain. -/
def armLrange (db : DB) (cmd : String) (parts : List String) :
    DB × String :=
  match parts with
  | _ :: k :: s :: e :: _ =>
    match stoiS s with
    | .error _ => stoiErrResp db
    | .ok ns =>
      match stoiS e with
      | .error _ => stoiErrResp db
      | .ok ne => wrapRaw (dbLrange db k ns ne)
  | _ => unknownResp db cmd

/-- The `sadd` arm of the dispatch chain. -/
def armSadd (hf : String → Nat) (db : DB) (cmd : String) (parts : List String) :
    DB × String :=
  match parts with
  | _ :: k :: v :: _ => wrapInt (dbSadd hf db k v)
  | _ => unknownResp db cmd

/-- The `sismember` arm of the dispatch chain. -/
def armSismember (db : DB) (cmd : String) (parts : List String) :
    DB × String :=
  match parts with
  | _ :: k :: v :: _ => wrapInt (dbSismember db k v)
  | _ => unknownResp db cmd

/-- The `srem` arm of the dispatch chain. -/
def armSrem (db : DB) (cmd : String) (parts : List String) :
    DB × String :=
  match parts with
  | _ :: k :: v :: _ => wrapInt (dbSrem db k v)
  | _ => unknownResp db cmd

/-- The `scard` arm of the dispatch chain. -/
def armScard (db : DB) (cmd : String) (parts : List String) :
    DB × String :=
  match parts with
  | _ :: k :: _ => wrapInt (dbScard db k)
  | _ => unknownResp db cmd

/-- The `smembers` arm of the dispatch chain. -/
def armSmembers (db : DB) (cmd : String) (parts : List String) :
    DB × String :=
  match parts with
  | _ :: k :: _ => wrapRaw (dbSmembers db k)
  | _ => unknownResp db cmd

/-- The `hset` arm of the dispatch chain. -/
def armHset (hf : String → Nat) (db : DB) (cmd : String) (parts : List String) :
    DB × String :=
  match parts with
  | _ :: k :: f :: v :: _ => wrapInt (dbHset hf db k f v)
  | _ => unknownResp db cmd

/-- The `hget` arm of the dispatch chain. -/
def armHget (db : DB) (cmd : String) (parts : List String) :
    DB × String :=
  match parts with
  | _ :: k :: f :: _ => wrapBulk (dbHget db k f)
  | _ => unknownResp db cmd

/-- The `hexists` arm of the dispatch chain. -/
def armHexists (db : DB) (cmd : String) (parts : List String) :
    DB × String :=
  match parts with
  | _ :: k :: f :: _ => wrapInt (dbHexists db k f)
  | _ => unknownResp db cmd

/-- The `hdel` arm of the dispatch chain. -/
def armHdel (db : DB) (cmd : String) (parts : List String) :
    DB × String :=
  match parts with
  | _ :: k :: f :: _ => wrapInt (dbHdel db k f)
  | _ => unknownResp db cmd

/-- The `hlen` arm of the dispatch chain. -/
def armHlen (db : DB) (cmd : String) (parts : List String) :
    DB × String :=
  match parts with
  | _ :: k :: _ => wrapInt (dbHlen db k)
  | _ => unknownResp db cmd

/-- The `hkeys` arm of the dispatch chain. -/
def armHkeys (db : DB) (cmd : String) (parts : List String) :
    DB × String :=
  match parts with
  | _ :: k :: _ => wrapRaw (dbHkeys db k)
  | _ => unknownResp db cmd

/-- The `hvals` arm of the dispatch chain. -/
def armHvals (db : DB) (cmd : String) (parts : List String) :
    DB × String :=
  match parts with
  | _ :: k :: _ => wrapRaw (dbHvals db k)
  | _ => unknownResp db cmd

/-- The `hgetall` arm of the dispatch chain. -/
def armHgetall (db : DB) (cmd : String) (parts : List String) :
    DB × String :=
  match parts with
  | _ :: k :: _ => wrapRaw (dbHgetall db k)
  | _ => unknownResp db cmd

/-- The dispatch chain of `CommandHandler::process_command` after
tokenization and lowercasing: a chain of name comparisons in source
order, each delegating to the corresponding arm above; each command
requires its minimum token count (`command_parts.size() >= n`, realised
as a pattern on the token list) and reads only the tokens at fixed
positions below that count; a recognized name with too few tokens falls
through to the unknown-command reply, exactly as the `&&` conditions in
the source do. -/
def dispatch (hf : String → Nat) (db : DB) (cmd : String)
    (parts : List String) : DB × String :=
  if cmd == "set" then armSet hf db cmd parts
  else if cmd == "get" then armGet hf db cmd parts
  else if cmd == "del" then armDel db cmd parts
  else if cmd == "type" then armType hf db cmd parts
  else if cmd == "lpush" then armLpush hf db cmd parts
  else if cmd == "rpush" then armRpush hf db cmd parts
  else if cmd == "lpop" then armLpop db cmd parts
  else if cmd == "rpop" then armRpop db cmd parts
  else if cmd == "lindex" then armLindex db cmd parts
  else if cmd == "llen" then armLlen db cmd parts
  else if cmd == "lrange" then armLrange db cmd parts
  else if cmd == "sadd" then armSadd hf db cmd parts
  else if cmd == "sismember" then armSismember db cmd parts
  else if cmd == "srem" then armSrem db cmd parts
  else if cmd == "scard" then armScard db cmd parts
  else if cmd == "smembers" then armSmembers db cmd parts
  else if cmd == "hset" then armHset hf db cmd parts
  else if cmd == "hget" then armHget db cmd parts
  else if cmd == "hexists" then armHexists db cmd parts
  else if cmd == "hdel" then armHdel db cmd parts
  else if cmd == "hlen" then armHlen db cmd parts
  else if cmd == "hkeys" then armHkeys db cmd parts
  else if cmd == "hvals" then armHvals db cmd parts
  else if cmd == "hgetall" then armHgetall db cmd parts
  else if cmd == "ping" then (db, "+PONG\r\n")
  else unknownResp db cmd

/-- `CommandHandler::process_command` on an already tokenized request:
an empty token list is the empty-command error, otherwise the first
token is lowercased and dispatched. -/
def execTokens (hf : String → Nat) (db : DB) (parts : List String) :
    DB × String :=
  match parts with
  | [] => (db, "-ERR empty command\r\n")
  | c :: _ => dispatch hf db (cppToLower c) parts

/-- The whitespace tokenization (`std::istringstream >>`) of
`CommandHandler::process_command`. -/
def tokenizeCpp (s : String) : List String :=
  (s.split (fun c => isCppSpace c)).filter (fun t => !(t == ""))

/-- `CommandHandler::process_command` on a raw request line. -/
def processCommand (hf : String → Nat) (db : DB) (s : String) : DB × String :=
  execTokens hf db (tokenizeCpp s)

/-- A concrete hash function used to instantiate the theorems below on
closed inputs (any function is admissible, §"Modelling conventions"). -/
def hf0 : String → Nat := fun _ => 0

/-- Modelled from the spec text of claim C7, word for word: "negative
indices count from the end, both bounds are clamped into [0, len-1],
and the result is empty when start > end after clamping" — i.e. both
the start and the end index are clamped into the closed interval
`[0, len-1]`. -/
def lrangeClaim (elems : List String) (start stop : Int) : List String :=
  let len : Int := elems.length
  let s1 := if start < 0 then len + start else start
  let e1 := if stop < 0 then len + stop else stop
  let s2 := min (max 0 s1) (len - 1)
  let e2 := min (max 0 e1) (len - 1)
  if s2 > e2 then []
  else (elems.drop s2.toNat).take (e2 - s2 + 1).toNat

/-- Modelled from the amended claim for C7: negative indices count from
the end, the start bound is clamped only from below (to 0), the end
bound only from above (to len-1), and the result is empty when
start > end after clamping; otherwise it is the contiguous segment of
`e2 - s2 + 1` elements starting at `s2`. -/
def lrangeAmendedSpec (elems : List String) (start stop : Int) : List String :=
  let len : Int := elems.length
  let s1 := if start < 0 then len + start else start
  let e1 := if stop < 0 then len + stop else stop
  let s2 := max 0 s1
  let e2 := min (len - 1) e1
  if s2 > e2 then []
  else (elems.drop s2.toNat).take (e2 - s2 + 1).toNat

/-- The recognized command names with the minimum token count each
`command_parts.size() >= n` test requires (the command itself
included). -/
def commandArities : List (String × Nat) :=
  [("set", 3), ("get", 2), ("del", 2), ("type", 2),
   ("lpush", 3), ("rpush", 3), ("lpop", 2), ("rpop", 2),
   ("lindex", 3), ("llen", 2), ("lrange", 4),
   ("sadd", 3), ("sismember", 3), ("srem", 3), ("scard", 2),
   ("smembers", 2),
   ("hset", 4), ("hget", 3), ("hexists", 3), ("hdel", 3), ("hlen", 2),
   ("hkeys", 2), ("hvals", 2), ("hgetall", 2), ("ping", 1)]

/-- Every key present in the store has its bloom-filter bit set — true
of every state the program can reach, since each insertion path adds
the key to the filter and bits are never cleared. -/
def bloomCovers (hf : String → Nat) (db : DB) : Prop :=
  ∀ p ∈ db.store, bloomContains hf db.bloom p.1 = true

/-- A stored value that is not an empty collection. -/
def valueNonempty : Value → Bool
  | .str _ => true
  | .list l => !l.isEmpty
  | .set s => !s.isEmpty
  | .hash fs => !fs.isEmpty

/-- No key of the store is bound to an empty list, set or hash. -/
def noEmptyStore (s : List (String × Value)) : Prop :=
  ∀ p ∈ s, valueNonempty p.2 = true

/-- Pairwise-distinct keys used to drive the capacity experiment. -/
def natKey (n : Nat) : String := String.mk (List.replicate n 'k')

/-! ## Helper lemmas -/

theorem cacheAccess_length_le (k : String) (c : List String)
    (h : c.length ≤ CACHE_SIZE) : (cacheAccess k c).length ≤ CACHE_SIZE := by
  have he : (c.erase k).length ≤ c.length := List.length_erase_le k c
  simp only [cacheAccess]
  split
  · rw [List.length_dropLast]
    simp only [List.length_cons]
    omega
  · next hng => omega

theorem evictIfNeeded_id (db : DB) (h : db.cache.length ≤ CACHE_SIZE) :
    evictIfNeeded db = db := by
  unfold evictIfNeeded
  rw [if_neg]
  omega

theorem dbSet_eq (hf : String → Nat) (db : DB) (k v : String)
    (h : db.cache.length ≤ CACHE_SIZE) :
    dbSet hf db k v =
      ⟨storeSet db.store k (Value.str v), cacheAccess k db.cache,
        bloomAdd hf db.bloom k⟩ := by
  simp only [dbSet]
  rw [evictIfNeeded_id _ (cacheAccess_length_le k db.cache h)]

theorem bloomContains_bloomAdd_self (hf : String → Nat) (bits : List Nat)
    (k : String) : bloomContains hf (bloomAdd hf bits k) k = true := by
  simp [bloomContains, bloomAdd]

theorem storeLookup_storeSet_self (s : List (String × Value)) (k : String)
    (v : Value) : storeLookup (storeSet s k v) k = some v := by
  simp [storeLookup, storeSet]

theorem lookup_eraseP_key_ne {β : Type} (k k' : String) (h : k' ≠ k) :
    ∀ s : List (String × β),
      List.lookup k' (s.eraseP (fun p => p.1 == k)) = List.lookup k' s := by
  intro s
  induction s with
  | nil => rfl
  | cons p t ih =>
    by_cases hp : p.1 = k
    · rw [List.eraseP_cons_of_pos (by simp [hp])]
      rw [List.lookup_cons]
      have : (k' == p.1) = false := by simp [hp, h]
      simp [this]
    · rw [List.eraseP_cons_of_neg (by simp [hp])]
      cases p with
      | mk a b =>
        rw [List.lookup_cons, List.lookup_cons]
        simp only at hp ih ⊢
        cases hak : (k' == a) <;> simp [hak, ih]

theorem storeLookup_storeSet_ne (s : List (String × Value)) (k k' : String)
    (v : Value) (h : k' ≠ k) :
    storeLookup (storeSet s k v) k' = storeLookup s k' := by
  unfold storeLookup storeSet
  rw [List.lookup_cons]
  have : (k' == k) = false := by simp [h]
  simp only [this]
  exact lookup_eraseP_key_ne k k' h s

theorem eraseP_key_of_lookup_none {β : Type} (k : String)
    (s : List (String × β)) (h : List.lookup k s = none) :
    s.eraseP (fun p => p.1 == k) = s := by
  induction s with
  | nil => rfl
  | cons p t ih =>
    cases p with
    | mk a b =>
      rw [List.lookup_cons] at h
      cases hak : (k == a) with
      | true => simp [hak] at h
      | false =>
        simp only [hak] at h
        have ha : (a == k) = false := by
          have : k ≠ a := by simpa using hak
          simp [Ne.symm this]
        rw [List.eraseP_cons_of_neg (by simp [ha])]
        rw [ih h]

theorem execTokens_cmd_congr (hf : String → Nat) (db : DB) (c : String)
    (p1 p2 : List String) (s : String) (hc : cppToLower c = s)
    (h : dispatch hf db s (c :: p1) = dispatch hf db s (c :: p2)) :
    execTokens hf db (c :: p1) = execTokens hf db (c :: p2) := by
  have e1 : execTokens hf db (c :: p1) =
      dispatch hf db (cppToLower c) (c :: p1) := rfl
  have e2 : execTokens hf db (c :: p2) =
      dispatch hf db (cppToLower c) (c :: p2) := rfl
  rw [e1, e2, hc]
  exact h

/-- C4 (counterexample): the stored value "NULL" — a whitespace-free
token the protocol accepts — is returned by the wire interface as the
null bulk `$-1\r\n`, not as the bulk-string encoding `$4\r\nNULL\r\n`
of the value, so SET k v then GET k does not answer the bulk-string
encoding of v for every accepted v. -/
theorem c4_counterexample :
    (execTokens hf0 (execTokens hf0 DB.empty ["SET", "k", "NULL"]).1
        ["GET", "k"]).2 = "$-1\r\n" ∧
    "$-1\r\n" ≠
      "$" ++ toString ("NULL" : String).length ++ "\r\n" ++ "NULL" ++ "\r\n" :=
  ⟨by rfl, by decide⟩

/-- C4 (amended): for all keys k and values v accepted by the protocol,
provided v is not the literal "NULL" and does not begin with the nine
characters "WRONGTYPE", SET k v answers `+OK\r\n` and the following
GET k answers the bulk-string encoding of v (for any hash function and
any starting state whose recency tracker is within its capacity
bound). -/
theorem c4_set_then_get (hf : String → Nat) (db : DB) (k v : String)
    (hc : db.cache.length ≤ CACHE_SIZE)
    (hv1 : v ≠ "NULL") (hv2 : substr9 v ≠ "WRONGTYPE") :
    (execTokens hf db ["SET", k, v]).2 = "+OK\r\n" ∧
    (execTokens hf (execTokens hf db ["SET", k, v]).1 ["GET", k]).2 =
      "$" ++ toString v.length ++ "\r\n" ++ v ++ "\r\n" := by
  have e1 : execTokens hf db ["SET", k, v] = (dbSet hf db k v, "+OK\r\n") := by
    rfl
  refine ⟨by rw [e1], ?_⟩
  rw [e1]
  show (wrapBulk (dbGet hf (dbSet hf db k v) k)).2 =
    "$" ++ toString v.length ++ "\r\n" ++ v ++ "\r\n"
  rw [dbSet_eq hf db k v hc]
  simp only [dbGet, bloomContains_bloomAdd_self, storeLookup_storeSet_self,
    if_true]
  simp [wrapBulk, hv1, hv2]

/-- C4 (witness): the amended theorem at a concrete input. -/
theorem c4_witness :
    (execTokens hf0 DB.empty ["SET", "foo", "bar"]).2 = "+OK\r\n" ∧
    (execTokens hf0 (execTokens hf0 DB.empty ["SET", "foo", "bar"]).1
        ["GET", "foo"]).2 =
      "$" ++ toString ("bar" : String).length ++ "\r\n" ++ "bar" ++ "\r\n" :=
  c4_set_then_get hf0 DB.empty "foo" "bar" (by decide) (by decide) (by decide)

/-- C9: for every stored string value whose first nine characters are
"WRONGTYPE", GET answers the protocol error encoding `-<value>\r\n`
instead of the bulk-string encoding — the stored-value namespace and
the error namespace are not disjoint at the wire interface. -/
theorem c9_wrongtype_value_error_reply (hf : String → Nat) (db : DB)
    (k v : String) (hc : db.cache.length ≤ CACHE_SIZE)
    (hv : substr9 v = "WRONGTYPE") :
    (execTokens hf (execTokens hf db ["SET", k, v]).1 ["GET", k]).2 =
      "-" ++ v ++ "\r\n" := by
  have e1 : execTokens hf db ["SET", k, v] = (dbSet hf db k v, "+OK\r\n") := by
    rfl
  rw [e1]
  show (wrapBulk (dbGet hf (dbSet hf db k v) k)).2 = "-" ++ v ++ "\r\n"
  rw [dbSet_eq hf db k v hc]
  simp only [dbGet, bloomContains_bloomAdd_self, storeLookup_storeSet_self,
    if_true]
  have hv1 : v ≠ "NULL" := by
    intro h
    subst h
    exact absurd hv (by decide)
  simp [wrapBulk, hv1, hv]

/-- C9 (witness): the theorem at a concrete input. -/
theorem c9_witness :
    (execTokens hf0 (execTokens hf0 DB.empty ["SET", "k", "WRONGTYPEz"]).1
        ["GET", "k"]).2 = "-" ++ "WRONGTYPEz" ++ "\r\n" :=
  c9_wrongtype_value_error_reply hf0 DB.empty "k" "WRONGTYPEz" (by decide)
    (by decide)

theorem lrange_core (elems : List String) (s2 e2 : Int) (hs2 : 0 ≤ s2) :
    (if s2 > e2 then ([] : List String)
      else (elems.take (e2.toNat + 1)).drop s2.toNat) =
    (if s2 > e2 then ([] : List String)
      else (elems.drop s2.toNat).take (e2 - s2 + 1).toNat) := by
  split
  · rfl
  · next h =>
    rw [List.take_drop]
    have harith : e2.toNat + 1 = s2.toNat + (e2 - s2 + 1).toNat := by omega
    rw [harith]

theorem lrange_eq_amended_spec :
    ∀ (elems : List String) (s e : Int),
      ListType.lrange elems s e = lrangeAmendedSpec elems s e := by
  intro elems s e
  simp only [ListType.lrange, lrangeAmendedSpec]
  by_cases he : elems = []
  · subst he
    simp only [List.length_nil, Nat.cast_zero]
    have h1 : min ((0:Int) - 1) (if e < 0 then (0:Int) + e else e) ≤ 0 - 1 :=
      min_le_left _ _
    have h2 : (0:Int) ≤ max 0 (if s < 0 then (0:Int) + s else s) :=
      le_max_left _ _
    simp only [if_true]
    rw [if_pos (lt_of_le_of_lt h1 (lt_of_lt_of_le (by norm_num) h2))]
  · rw [if_neg he]
    exact lrange_core elems _ _ (le_max_left _ _)

/-- C7 (counterexample): on the three-element list with start 5 and end
2, the claim's clamping rule (both bounds clamped into [0, len-1], so
start 5 becomes 2 and the range [2,2] is nonempty) disagrees with the
code, which clamps start only from below and returns the empty list. -/
theorem c7_counterexample :
    ListType.lrange ["a", "b", "c"] 5 2 ≠ lrangeClaim ["a", "b", "c"] 5 2 := by
  decide

/-- C7 (amended): LRANGE applies the clamping actually implemented:
negative indices count from the end, the start bound is clamped only
from below (to 0), the end bound only from above (to len-1), and the
result is empty when start > end after clamping; in particular, for a
3-element list LRANGE k -100 100 returns all 3 elements in order and
LRANGE k 2 1 returns the empty array, also at the wire level. -/
theorem c7_lrange_clamping :
    (∀ (elems : List String) (s e : Int),
        ListType.lrange elems s e = lrangeAmendedSpec elems s e) ∧
    ListType.lrange ["a", "b", "c"] (-100) 100 = ["a", "b", "c"] ∧
    ListType.lrange ["a", "b", "c"] 2 1 = [] ∧
    (execTokens hf0 ⟨[("k", Value.list ["a", "b", "c"])], ["k"], []⟩
        ["LRANGE", "k", "-100", "100"]).2 =
      "*3\r\n$1\r\na\r\n$1\r\nb\r\n$1\r\nc\r\n" ∧
    (execTokens hf0 ⟨[("k", Value.list ["a", "b", "c"])], ["k"], []⟩
        ["LRANGE", "k", "2", "1"]).2 = "*0\r\n" :=
  ⟨lrange_eq_amended_spec, by decide, by decide, by rfl, by rfl⟩

/-- C8: every recognized command name invoked with fewer than its
minimum number of tokens falls through to the unknown-command error
response naming the (lowercased) command, rather than a distinct
wrong-arity error; and an empty token list yields the empty-command
error response. -/
theorem c8_short_args_unknown_command (hf : String → Nat) (db : DB) :
    (∀ (c : String) (args : List String) (n : Nat),
        (cppToLower c, n) ∈ commandArities → (c :: args).length < n →
        execTokens hf db (c :: args) =
          (db, "-ERR unknown command \x27" ++ cppToLower c ++ "\x27\r\n")) ∧
    execTokens hf db [] = (db, "-ERR empty command\r\n") := by
  refine ⟨?_, rfl⟩
  intro c args n hmem hlen
  have e : execTokens hf db (c :: args) =
      dispatch hf db (cppToLower c) (c :: args) := rfl
  rw [e]
  simp only [commandArities, List.mem_cons, List.mem_singleton,
    Prod.mk.injEq, List.not_mem_nil, or_false] at hmem
  simp only [List.length_cons] at hlen
  rcases hmem with ⟨hc, hn⟩ | ⟨hc, hn⟩ | ⟨hc, hn⟩ | ⟨hc, hn⟩ | ⟨hc, hn⟩ |
    ⟨hc, hn⟩ | ⟨hc, hn⟩ | ⟨hc, hn⟩ | ⟨hc, hn⟩ | ⟨hc, hn⟩ | ⟨hc, hn⟩ |
    ⟨hc, hn⟩ | ⟨hc, hn⟩ | ⟨hc, hn⟩ | ⟨hc, hn⟩ | ⟨hc, hn⟩ | ⟨hc, hn⟩ |
    ⟨hc, hn⟩ | ⟨hc, hn⟩ | ⟨hc, hn⟩ | ⟨hc, hn⟩ | ⟨hc, hn⟩ | ⟨hc, hn⟩ |
    ⟨hc, hn⟩ | ⟨hc, hn⟩ <;>
    subst hn <;> rw [hc] <;>
    rcases args with _ | ⟨a1, _ | ⟨a2, _ | ⟨a3, rest⟩⟩⟩ <;>
    simp only [List.length_cons, List.length_nil] at hlen <;>
    first
      | rfl
      | omega

/-- C8 (witness): SET with a single argument is answered with the
unknown-command error. -/
theorem c8_witness :
    execTokens hf0 DB.empty ["SET", "k"] =
      (DB.empty, "-ERR unknown command \x27" ++ cppToLower "SET" ++
        "\x27\r\n") :=
  (c8_short_args_unknown_command hf0 DB.empty).1 "SET" ["k"] 3 (by decide)
    (by decide)

/-- C10: for every recognized command, tokens beyond the command's
minimum argument count are silently ignored: a request with extra
trailing tokens behaves identically — same reply and same resulting
state — to the same request truncated to the command's required
arguments (the first token may be in any case; only its lowercased form
is dispatched on). -/
theorem c10_extra_tokens_ignored (hf : String → Nat) (db : DB) :
    (∀ c a1 a2 extra, cppToLower c = "set" →
      execTokens hf db (c :: a1 :: a2 :: extra) =
        execTokens hf db [c, a1, a2]) ∧
    (∀ c a1 extra, cppToLower c = "get" →
      execTokens hf db (c :: a1 :: extra) =
        execTokens hf db [c, a1]) ∧
    (∀ c a1 extra, cppToLower c = "del" →
      execTokens hf db (c :: a1 :: extra) =
        execTokens hf db [c, a1]) ∧
    (∀ c a1 extra, cppToLower c = "type" →
      execTokens hf db (c :: a1 :: extra) =
        execTokens hf db [c, a1]) ∧
    (∀ c a1 a2 extra, cppToLower c = "lpush" →
      execTokens hf db (c :: a1 :: a2 :: extra) =
        execTokens hf db [c, a1, a2]) ∧
    (∀ c a1 a2 extra, cppToLower c = "rpush" →
      execTokens hf db (c :: a1 :: a2 :: extra) =
        execTokens hf db [c, a1, a2]) ∧
    (∀ c a1 extra, cppToLower c = "lpop" →
      execTokens hf db (c :: a1 :: extra) =
        execTokens hf db [c, a1]) ∧
    (∀ c a1 extra, cppToLower c = "rpop" →
      execTokens hf db (c :: a1 :: extra) =
        execTokens hf db [c, a1]) ∧
    (∀ c a1 a2 extra, cppToLower c = "lindex" →
      execTokens hf db (c :: a1 :: a2 :: extra) =
        execTokens hf db [c, a1, a2]) ∧
    (∀ c a1 extra, cppToLower c = "llen" →
      execTokens hf db (c :: a1 :: extra) =
        execTokens hf db [c, a1]) ∧
    (∀ c a1 a2 a3 extra, cppToLower c = "lrange" →
      execTokens hf db (c :: a1 :: a2 :: a3 :: extra) =
        execTokens hf db [c, a1, a2, a3]) ∧
    (∀ c a1 a2 extra, cppToLower c = "sadd" →
      execTokens hf db (c :: a1 :: a2 :: extra) =
        execTokens hf db [c, a1, a2]) ∧
    (∀ c a1 a2 extra, cppToLower c = "sismember" →
      execTokens hf db (c :: a1 :: a2 :: extra) =
        execTokens hf db [c, a1, a2]) ∧
    (∀ c a1 a2 extra, cppToLower c = "srem" →
      execTokens hf db (c :: a1 :: a2 :: extra) =
        execTokens hf db [c, a1, a2]) ∧
    (∀ c a1 extra, cppToLower c = "scard" →
      execTokens hf db (c :: a1 :: extra) =
        execTokens hf db [c, a1]) ∧
    (∀ c a1 extra, cppToLower c = "smembers" →
      execTokens hf db (c :: a1 :: extra) =
        execTokens hf db [c, a1]) ∧
    (∀ c a1 a2 a3 extra, cppToLower c = "hset" →
      execTokens hf db (c :: a1 :: a2 :: a3 :: extra) =
        execTokens hf db [c, a1, a2, a3]) ∧
    (∀ c a1 a2 extra, cppToLower c = "hget" →
      execTokens hf db (c :: a1 :: a2 :: extra) =
        execTokens hf db [c, a1, a2]) ∧
    (∀ c a1 a2 extra, cppToLower c = "hexists" →
      execTokens hf db (c :: a1 :: a2 :: extra) =
        execTokens hf db [c, a1, a2]) ∧
    (∀ c a1 a2 extra, cppToLower c = "hdel" →
      execTokens hf db (c :: a1 :: a2 :: extra) =
        execTokens hf db [c, a1, a2]) ∧
    (∀ c a1 extra, cppToLower c = "hlen" →
      execTokens hf db (c :: a1 :: extra) =
        execTokens hf db [c, a1]) ∧
    (∀ c a1 extra, cppToLower c = "hkeys" →
      execTokens hf db (c :: a1 :: extra) =
        execTokens hf db [c, a1]) ∧
    (∀ c a1 extra, cppToLower c = "hvals" →
      execTokens hf db (c :: a1 :: extra) =
        execTokens hf db [c, a1]) ∧
    (∀ c a1 extra, cppToLower c = "hgetall" →
      execTokens hf db (c :: a1 :: extra) =
        execTokens hf db [c, a1]) ∧
    (∀ c extra, cppToLower c = "ping" →
      execTokens hf db (c :: extra) =
        execTokens hf db [c]) := by
  refine ⟨?_, ?_, ?_, ?_, ?_, ?_, ?_, ?_, ?_, ?_, ?_, ?_, ?_, ?_, ?_, ?_, ?_, ?_, ?_, ?_, ?_, ?_, ?_, ?_, ?_⟩
  · intro c a1 a2 extra hc
    refine execTokens_cmd_congr hf db c _ _ _ hc ?_
    rfl
  · intro c a1 extra hc
    refine execTokens_cmd_congr hf db c _ _ _ hc ?_
    rfl
  · intro c a1 extra hc
    refine execTokens_cmd_congr hf db c _ _ _ hc ?_
    rfl
  · intro c a1 extra hc
    refine execTokens_cmd_congr hf db c _ _ _ hc ?_
    rfl
  · intro c a1 a2 extra hc
    refine execTokens_cmd_congr hf db c _ _ _ hc ?_
    rfl
  · intro c a1 a2 extra hc
    refine execTokens_cmd_congr hf db c _ _ _ hc ?_
    rfl
  · intro c a1 extra hc
    refine execTokens_cmd_congr hf db c _ _ _ hc ?_
    rfl
  · intro c a1 extra hc
    refine execTokens_cmd_congr hf db c _ _ _ hc ?_
    rfl
  · intro c a1 a2 extra hc
    refine execTokens_cmd_congr hf db c _ _ _ hc ?_
    rfl
  · intro c a1 extra hc
    refine execTokens_cmd_congr hf db c _ _ _ hc ?_
    rfl
  · intro c a1 a2 a3 extra hc
    refine execTokens_cmd_congr hf db c _ _ _ hc ?_
    rfl
  · intro c a1 a2 extra hc
    refine execTokens_cmd_congr hf db c _ _ _ hc ?_
    rfl
  · intro c a1 a2 extra hc
    refine execTokens_cmd_congr hf db c _ _ _ hc ?_
    rfl
  · intro c a1 a2 extra hc
    refine execTokens_cmd_congr hf db c _ _ _ hc ?_
    rfl
  · intro c a1 extra hc
    refine execTokens_cmd_congr hf db c _ _ _ hc ?_
    rfl
  · intro c a1 extra hc
    refine execTokens_cmd_congr hf db c _ _ _ hc ?_
    rfl
  · intro c a1 a2 a3 extra hc
    refine execTokens_cmd_congr hf db c _ _ _ hc ?_
    rfl
  · intro c a1 a2 extra hc
    refine execTokens_cmd_congr hf db c _ _ _ hc ?_
    rfl
  · intro c a1 a2 extra hc
    refine execTokens_cmd_congr hf db c _ _ _ hc ?_
    rfl
  · intro c a1 a2 extra hc
    refine execTokens_cmd_congr hf db c _ _ _ hc ?_
    rfl
  · intro c a1 extra hc
    refine execTokens_cmd_congr hf db c _ _ _ hc ?_
    rfl
  · intro c a1 extra hc
    refine execTokens_cmd_congr hf db c _ _ _ hc ?_
    rfl
  · intro c a1 extra hc
    refine execTokens_cmd_congr hf db c _ _ _ hc ?_
    rfl
  · intro c a1 extra hc
    refine execTokens_cmd_congr hf db c _ _ _ hc ?_
    rfl
  · intro c extra hc
    refine execTokens_cmd_congr hf db c _ _ _ hc ?_
    rfl

/-- C10 (witness): SET with one extra trailing token behaves exactly as
the truncated request. -/
theorem c10_witness :
    execTokens hf0 DB.empty ("SET" :: "k" :: "v" :: ["junk"]) =
      execTokens hf0 DB.empty ["SET", "k", "v"] :=
  (c10_extra_tokens_ignored hf0 DB.empty).1 "SET" "k" "v" ["junk"] (by decide)


theorem natKey_injective : Function.Injective natKey := by
  intro a b h
  have hd : List.replicate a 'k' = List.replicate b 'k' :=
    congrArg String.data h
  have hlen := congrArg List.length hd
  simpa using hlen

theorem cacheAccess_length_of_not_mem (k : String) (c : List String)
    (hm : k ∉ c) (hlen : c.length ≤ CACHE_SIZE) :
    (cacheAccess k c).length = min (c.length + 1) CACHE_SIZE := by
  simp only [cacheAccess, List.erase_of_not_mem hm]
  split
  · next hgt =>
    simp only [List.length_cons] at hgt
    simp only [List.length_dropLast, List.length_cons]
    omega
  · next hng =>
    simp only [List.length_cons] at hng ⊢
    omega

theorem mem_of_mem_cacheAccess (k x : String) (c : List String)
    (hx : x ∈ cacheAccess k c) : x = k ∨ x ∈ c := by
  simp only [cacheAccess] at hx
  have hsub : x ∈ k :: c.erase k := by
    split at hx
    · exact List.mem_of_mem_dropLast hx
    · exact hx
  rcases List.mem_cons.mp hsub with h | h
  · exact Or.inl h
  · exact Or.inr (List.mem_of_mem_erase h)

theorem foldl_dbSet_lengths (hf : String → Nat) (v : String) :
    ∀ (ks : List String) (db : DB),
      db.cache.length ≤ CACHE_SIZE →
      (∀ k ∈ ks, storeLookup db.store k = none) →
      (∀ k ∈ ks, k ∉ db.cache) →
      ks.Nodup →
      (ks.foldl (fun d k => dbSet hf d k v) db).store.length =
          db.store.length + ks.length ∧
        (ks.foldl (fun d k => dbSet hf d k v) db).cache.length =
          min (db.cache.length + ks.length) CACHE_SIZE := by
  intro ks
  induction ks with
  | nil =>
    intro db h1 _ _ _
    refine ⟨by simp, ?_⟩
    simp only [List.foldl_nil, List.length_nil]
    omega
  | cons k ks ih =>
    intro db hlen hstore hcache hnodup
    have hknotc : k ∉ db.cache := hcache k (by simp)
    have hkstore : storeLookup db.store k = none := hstore k (by simp)
    have hdb1 : dbSet hf db k v =
        ⟨storeSet db.store k (Value.str v), cacheAccess k db.cache,
          bloomAdd hf db.bloom k⟩ := dbSet_eq hf db k v hlen
    have hstore1 : storeSet db.store k (Value.str v) =
        (k, Value.str v) :: db.store := by
      unfold storeSet
      rw [eraseP_key_of_lookup_none k db.store hkstore]
    have hclen : (cacheAccess k db.cache).length =
        min (db.cache.length + 1) CACHE_SIZE :=
      cacheAccess_length_of_not_mem k db.cache hknotc hlen
    have hknein : k ∉ ks := by
      intro hk
      exact (List.nodup_cons.mp hnodup).1 hk
    have h2 := ih ⟨storeSet db.store k (Value.str v), cacheAccess k db.cache,
        bloomAdd hf db.bloom k⟩
      (by simp [hclen])
      (by
        intro k' hk'
        have hne : k' ≠ k := by
          intro he
          exact hknein (he ▸ hk')
        show storeLookup (storeSet db.store k (Value.str v)) k' = none
        rw [storeLookup_storeSet_ne db.store k k' (Value.str v) hne]
        exact hstore k' (by simp [hk']))
      (by
        intro k' hk' hmem
        have hne : k' ≠ k := by
          intro he
          exact hknein (he ▸ hk')
        rcases mem_of_mem_cacheAccess k k' db.cache hmem with h | h
        · exact hne h
        · exact hcache k' (by simp [hk']) h)
      ((List.nodup_cons.mp hnodup).2)
    rcases h2 with ⟨hs2, hc2⟩
    constructor
    · simp only [List.foldl_cons, hdb1]
      rw [hs2]
      simp only [hstore1, List.length_cons]
      omega
    · simp only [List.foldl_cons, hdb1]
      rw [hc2]
      simp only [hclen, List.length_cons]
      omega

/-- C1 (code_bug evidence): after CACHE_SIZE + 1 SET commands on
pairwise-distinct keys starting from the empty database, the store
holds CACHE_SIZE + 1 live keys while the recency tracker holds only
CACHE_SIZE — `LRUCache::access` has already trimmed the cache to
`max_size`, so `BlinkDB::evict_if_needed`'s `cache.size() > CACHE_SIZE`
test never fires and the store entry of the dropped key is never
erased, violating the claimed capacity invariant. -/
theorem c1_store_exceeds_capacity (hf : String → Nat) :
    (((List.range (CACHE_SIZE + 1)).map natKey).foldl
        (fun d k => dbSet hf d k "v") DB.empty).store.length =
      CACHE_SIZE + 1 ∧
    (((List.range (CACHE_SIZE + 1)).map natKey).foldl
        (fun d k => dbSet hf d k "v") DB.empty).cache.length = CACHE_SIZE := by
  have h := foldl_dbSet_lengths hf "v"
    ((List.range (CACHE_SIZE + 1)).map natKey) DB.empty
    (by simp [DB.empty])
    (by intro k _; rfl)
    (by intro k _; simp [DB.empty])
    ((List.nodup_range _).map natKey_injective)
  rcases h with ⟨h1, h2⟩
  constructor
  · rw [h1]
    simp [DB.empty]
  · rw [h2]
    simp [DB.empty, CACHE_SIZE]

/-- C2 (code_bug evidence): the hash serialization does not survive a
round trip — `HashType::deserialize` searches for the value-length
colon starting at the separator colon's own position and therefore runs
`std::stoi` on an empty substring, which throws `invalid_argument` on
every well-formed hash record; a saved line for the one-entry hash
{f ↦ v} makes `load_from_disk` propagate that exception instead of
reproducing the key. -/
theorem c2_hash_roundtrip_throws :
    hashTypeDeserialize (hashSerialize [("f", "v")]) =
      Except.error CppExn.invalidArgument ∧
    loadLines hf0 [saveLine "h" (Value.hash [("f", "v")])] =
      Except.error CppExn.invalidArgument :=
  ⟨by rfl, by rfl⟩

/-- C3 (code_bug evidence): a structurally short or space-less line is
indeed skipped (first conjunct), but a corrupt line whose element
length prefix is empty drives `std::stoi` to throw `invalid_argument`
inside `ListType::deserialize`, and `load_from_disk` has no handler:
loading aborts instead of skipping the line and continuing. -/
theorem c3_malformed_line_aborts_load :
    loadLines hf0 [String.toList "garbageline"] = Except.ok DB.empty ∧
    loadLines hf0 [String.toList "L k L:x"] =
      Except.error CppExn.invalidArgument :=
  ⟨by rfl, by rfl⟩

theorem mem_of_storeLookup_eq_some (s : List (String × Value)) (k : String)
    (w : Value) (h : storeLookup s k = some w) : (k, w) ∈ s := by
  unfold storeLookup at h
  rcases List.lookup_eq_some_iff.mp h with ⟨l1, l2, rfl, _⟩
  simp

theorem wt_dbGet (hf : String → Nat) (db : DB) (k : String) (w : Value)
    (hb : bloomCovers hf db) (hw : storeLookup db.store k = some w)
    (hkind : w.kind ≠ VKind.str) :
    dbGet hf db k =
      (⟨db.store, cacheAccess k db.cache, db.bloom⟩, wrongTypeMsg) := by
  have hbit : bloomContains hf db.bloom k = true :=
    hb (k, w) (mem_of_storeLookup_eq_some db.store k w hw)
  unfold dbGet
  rw [hbit, hw]
  rcases w with s | l | s | fs
  · exact absurd rfl hkind
  · rfl
  · rfl
  · rfl

theorem wt_dbLpush (hf : String → Nat) (db : DB) (k v : String) (w : Value)
    (hw : storeLookup db.store k = some w) (hkind : w.kind ≠ VKind.list) :
    dbLpush hf db k v = (db, wrongTypeMsg) := by
  unfold dbLpush
  rw [hw]
  rcases w with s | l | s | fs
  · rfl
  · exact absurd rfl hkind
  · rfl
  · rfl

theorem wt_dbRpush (hf : String → Nat) (db : DB) (k v : String) (w : Value)
    (hw : storeLookup db.store k = some w) (hkind : w.kind ≠ VKind.list) :
    dbRpush hf db k v = (db, wrongTypeMsg) := by
  unfold dbRpush
  rw [hw]
  rcases w with s | l | s | fs
  · rfl
  · exact absurd rfl hkind
  · rfl
  · rfl

theorem wt_dbLpop (db : DB) (k : String) (w : Value)
    (hw : storeLookup db.store k = some w) (hkind : w.kind ≠ VKind.list) :
    dbLpop db k = (db, wrongTypeMsg) := by
  unfold dbLpop
  rw [hw]
  rcases w with s | l | s | fs
  · rfl
  · exact absurd rfl hkind
  · rfl
  · rfl

theorem wt_dbRpop (db : DB) (k : String) (w : Value)
    (hw : storeLookup db.store k = some w) (hkind : w.kind ≠ VKind.list) :
    dbRpop db k = (db, wrongTypeMsg) := by
  unfold dbRpop
  rw [hw]
  rcases w with s | l | s | fs
  · rfl
  · exact absurd rfl hkind
  · rfl
  · rfl

theorem wt_dbLindex (db : DB) (k : String) (i : Int) (w : Value)
    (hw : storeLookup db.store k = some w) (hkind : w.kind ≠ VKind.list) :
    dbLindex db k i = (db, wrongTypeMsg) := by
  unfold dbLindex
  rw [hw]
  rcases w with s | l | s | fs
  · rfl
  · exact absurd rfl hkind
  · rfl
  · rfl

theorem wt_dbLlen (db : DB) (k : String) (w : Value)
    (hw : storeLookup db.store k = some w) (hkind : w.kind ≠ VKind.list) :
    dbLlen db k = (db, wrongTypeMsg) := by
  unfold dbLlen
  rw [hw]
  rcases w with s | l | s | fs
  · rfl
  · exact absurd rfl hkind
  · rfl
  · rfl

theorem wt_dbLrange (db : DB) (k : String) (s e : Int) (w : Value)
    (hw : storeLookup db.store k = some w) (hkind : w.kind ≠ VKind.list) :
    dbLrange db k s e = (db, wrongTypeMsg) := by
  unfold dbLrange
  rw [hw]
  rcases w with s | l | s | fs
  · rfl
  · exact absurd rfl hkind
  · rfl
  · rfl

theorem wt_dbSadd (hf : String → Nat) (db : DB) (k v : String) (w : Value)
    (hw : storeLookup db.store k = some w) (hkind : w.kind ≠ VKind.set) :
    dbSadd hf db k v = (db, wrongTypeMsg) := by
  unfold dbSadd
  rw [hw]
  rcases w with s | l | s | fs
  · rfl
  · rfl
  · exact absurd rfl hkind
  · rfl

theorem wt_dbSismember (db : DB) (k v : String) (w : Value)
    (hw : storeLookup db.store k = some w) (hkind : w.kind ≠ VKind.set) :
    dbSismember db k v = (db, wrongTypeMsg) := by
  unfold dbSismember
  rw [hw]
  rcases w with s | l | s | fs
  · rfl
  · rfl
  · exact absurd rfl hkind
  · rfl

theorem wt_dbSrem (db : DB) (k v : String) (w : Value)
    (hw : storeLookup db.store k = some w) (hkind : w.kind ≠ VKind.set) :
    dbSrem db k v = (db, wrongTypeMsg) := by
  unfold dbSrem
  rw [hw]
  rcases w with s | l | s | fs
  · rfl
  · rfl
  · exact absurd rfl hkind
  · rfl

theorem wt_dbScard (db : DB) (k : String) (w : Value)
    (hw : storeLookup db.store k = some w) (hkind : w.kind ≠ VKind.set) :
    dbScard db k = (db, wrongTypeMsg) := by
  unfold dbScard
  rw [hw]
  rcases w with s | l | s | fs
  · rfl
  · rfl
  · exact absurd rfl hkind
  · rfl

theorem wt_dbSmembers (db : DB) (k : String) (w : Value)
    (hw : storeLookup db.store k = some w) (hkind : w.kind ≠ VKind.set) :
    dbSmembers db k = (db, wrongTypeMsg) := by
  unfold dbSmembers
  rw [hw]
  rcases w with s | l | s | fs
  · rfl
  · rfl
  · exact absurd rfl hkind
  · rfl

theorem wt_dbHset (hf : String → Nat) (db : DB) (k f v : String) (w : Value)
    (hw : storeLookup db.store k = some w) (hkind : w.kind ≠ VKind.hash) :
    dbHset hf db k f v = (db, wrongTypeMsg) := by
  unfold dbHset
  rw [hw]
  rcases w with s | l | s | fs
  · rfl
  · rfl
  · rfl
  · exact absurd rfl hkind

theorem wt_dbHget (db : DB) (k f : String) (w : Value)
    (hw : storeLookup db.store k = some w) (hkind : w.kind ≠ VKind.hash) :
    dbHget db k f = (db, wrongTypeMsg) := by
  unfold dbHget
  rw [hw]
  rcases w with s | l | s | fs
  · rfl
  · rfl
  · rfl
  · exact absurd rfl hkind

theorem wt_dbHexists (db : DB) (k f : String) (w : Value)
    (hw : storeLookup db.store k = some w) (hkind : w.kind ≠ VKind.hash) :
    dbHexists db k f = (db, wrongTypeMsg) := by
  unfold dbHexists
  rw [hw]
  rcases w with s | l | s | fs
  · rfl
  · rfl
  · rfl
  · exact absurd rfl hkind

theorem wt_dbHdel (db : DB) (k f : String) (w : Value)
    (hw : storeLookup db.store k = some w) (hkind : w.kind ≠ VKind.hash) :
    dbHdel db k f = (db, wrongTypeMsg) := by
  unfold dbHdel
  rw [hw]
  rcases w with s | l | s | fs
  · rfl
  · rfl
  · rfl
  · exact absurd rfl hkind

theorem wt_dbHlen (db : DB) (k : String) (w : Value)
    (hw : storeLookup db.store k = some w) (hkind : w.kind ≠ VKind.hash) :
    dbHlen db k = (db, wrongTypeMsg) := by
  unfold dbHlen
  rw [hw]
  rcases w with s | l | s | fs
  · rfl
  · rfl
  · rfl
  · exact absurd rfl hkind

theorem wt_dbHkeys (db : DB) (k : String) (w : Value)
    (hw : storeLookup db.store k = some w) (hkind : w.kind ≠ VKind.hash) :
    dbHkeys db k = (db, wrongTypeMsg) := by
  unfold dbHkeys
  rw [hw]
  rcases w with s | l | s | fs
  · rfl
  · rfl
  · rfl
  · exact absurd rfl hkind

theorem wt_dbHvals (db : DB) (k : String) (w : Value)
    (hw : storeLookup db.store k = some w) (hkind : w.kind ≠ VKind.hash) :
    dbHvals db k = (db, wrongTypeMsg) := by
  unfold dbHvals
  rw [hw]
  rcases w with s | l | s | fs
  · rfl
  · rfl
  · rfl
  · exact absurd rfl hkind

theorem wt_dbHgetall (db : DB) (k : String) (w : Value)
    (hw : storeLookup db.store k = some w) (hkind : w.kind ≠ VKind.hash) :
    dbHgetall db k = (db, wrongTypeMsg) := by
  unfold dbHgetall
  rw [hw]
  rcases w with s | l | s | fs
  · rfl
  · rfl
  · rfl
  · exact absurd rfl hkind

/-- C5 (counterexample): GET on a key holding a list returns the
wrong-type error but does mutate the database — `BlinkDB::get` calls
`cache.access(key)` before checking the stored kind, so the recency
order changes from [b, a] to [a, b]; the claim's "performs no state
mutation" is therefore false as stated. -/
theorem c5_counterexample :
    (dbGet hf0
        ⟨[("a", Value.list ["x"]), ("b", Value.str "y")], ["b", "a"], [0]⟩
        "a").2 = wrongTypeMsg ∧
    (dbGet hf0
        ⟨[("a", Value.list ["x"]), ("b", Value.str "y")], ["b", "a"], [0]⟩
        "a").1 ≠
      ⟨[("a", Value.list ["x"]), ("b", Value.str "y")], ["b", "a"], [0]⟩ :=
  ⟨by rfl, by decide⟩

/-- C5 (amended): every command addressed to an existing key whose
stored kind differs from the kind the command requires returns the
wrong-type error string (distinct from the absent-key "NULL") and
leaves the store — keys and stored values — unchanged; every such
command except GET leaves the whole state unchanged, while GET moves
the key to the most-recently-used cache position before detecting the
mismatch. -/
theorem c5_wrong_type_behavior (hf : String → Nat) (db : DB)
    (k v f : String) (w : Value) (hb : bloomCovers hf db)
    (hw : storeLookup db.store k = some w) :
    (w.kind ≠ VKind.str →
      dbGet hf db k =
        (⟨db.store, cacheAccess k db.cache, db.bloom⟩, wrongTypeMsg)) ∧
    (w.kind ≠ VKind.list →
      dbLpush hf db k v = (db, wrongTypeMsg) ∧
      dbRpush hf db k v = (db, wrongTypeMsg) ∧
      dbLpop db k = (db, wrongTypeMsg) ∧
      dbRpop db k = (db, wrongTypeMsg) ∧
      (∀ i : Int, dbLindex db k i = (db, wrongTypeMsg)) ∧
      dbLlen db k = (db, wrongTypeMsg) ∧
      (∀ s e : Int, dbLrange db k s e = (db, wrongTypeMsg))) ∧
    (w.kind ≠ VKind.set →
      dbSadd hf db k v = (db, wrongTypeMsg) ∧
      dbSismember db k v = (db, wrongTypeMsg) ∧
      dbSrem db k v = (db, wrongTypeMsg) ∧
      dbScard db k = (db, wrongTypeMsg) ∧
      dbSmembers db k = (db, wrongTypeMsg)) ∧
    (w.kind ≠ VKind.hash →
      dbHset hf db k f v = (db, wrongTypeMsg) ∧
      dbHget db k f = (db, wrongTypeMsg) ∧
      dbHexists db k f = (db, wrongTypeMsg) ∧
      dbHdel db k f = (db, wrongTypeMsg) ∧
      dbHlen db k = (db, wrongTypeMsg) ∧
      dbHkeys db k = (db, wrongTypeMsg) ∧
      dbHvals db k = (db, wrongTypeMsg) ∧
      dbHgetall db k = (db, wrongTypeMsg)) ∧
    wrongTypeMsg ≠ "NULL" := by
  refine ⟨?_, ?_, ?_, ?_, by decide⟩
  · intro hkind
    exact wt_dbGet hf db k w hb hw hkind
  · intro hkind
    exact ⟨wt_dbLpush hf db k v w hw hkind, wt_dbRpush hf db k v w hw hkind,
      wt_dbLpop db k w hw hkind, wt_dbRpop db k w hw hkind,
      fun i => wt_dbLindex db k i w hw hkind, wt_dbLlen db k w hw hkind,
      fun s e => wt_dbLrange db k s e w hw hkind⟩
  · intro hkind
    exact ⟨wt_dbSadd hf db k v w hw hkind, wt_dbSismember db k v w hw hkind,
      wt_dbSrem db k v w hw hkind, wt_dbScard db k w hw hkind,
      wt_dbSmembers db k w hw hkind⟩
  · intro hkind
    exact ⟨wt_dbHset hf db k f v w hw hkind, wt_dbHget db k f w hw hkind,
      wt_dbHexists db k f w hw hkind, wt_dbHdel db k f w hw hkind,
      wt_dbHlen db k w hw hkind, wt_dbHkeys db k w hw hkind,
      wt_dbHvals db k w hw hkind, wt_dbHgetall db k w hw hkind⟩

/-- C5 (witness): SADD against a key holding a list at a concrete
state. -/
theorem c5_witness :
    dbSadd hf0 ⟨[("a", Value.list ["x"])], ["a"], [0]⟩ "a" "z" =
      (⟨[("a", Value.list ["x"])], ["a"], [0]⟩, wrongTypeMsg) :=
  ((c5_wrong_type_behavior hf0 ⟨[("a", Value.list ["x"])], ["a"], [0]⟩
      "a" "z" "g" (Value.list ["x"])
      (by
        intro p hp
        simp only [List.mem_singleton] at hp
        subst hp
        rfl)
      (by rfl)).2.2.1 (by decide)).1

theorem noEmptyStore_eraseP (s : List (String × Value))
    (p : String × Value → Bool) (h : noEmptyStore s) :
    noEmptyStore (s.eraseP p) := by
  intro q hq
  exact h q ((List.eraseP_sublist s).subset hq)

theorem noEmptyStore_storeSet (s : List (String × Value)) (k : String)
    (w : Value) (hw : valueNonempty w = true) (h : noEmptyStore s) :
    noEmptyStore (storeSet s k w) := by
  intro q hq
  rcases List.mem_cons.mp hq with hq1 | hq2
  · rw [hq1]
    exact hw
  · exact h q ((List.eraseP_sublist s).subset hq2)

theorem noEmptyStore_evict (db : DB) (h : noEmptyStore db.store) :
    noEmptyStore (evictIfNeeded db).store := by
  unfold evictIfNeeded
  split
  · split
    · exact noEmptyStore_eraseP db.store _ h
    · exact h
  · exact h

theorem valueNonempty_list (l : List String) (h : l ≠ []) :
    valueNonempty (Value.list l) = true := by
  cases l with
  | nil => exact absurd rfl h
  | cons a t => rfl

theorem valueNonempty_set (l : List String) (h : l ≠ []) :
    valueNonempty (Value.set l) = true := by
  cases l with
  | nil => exact absurd rfl h
  | cons a t => rfl

theorem valueNonempty_hash (l : List (String × String)) (h : l ≠ []) :
    valueNonempty (Value.hash l) = true := by
  cases l with
  | nil => exact absurd rfl h
  | cons a t => rfl

theorem noEmpty_dbSet (hf : String → Nat) (db : DB) (k v : String)
    (h : noEmptyStore db.store) : noEmptyStore (dbSet hf db k v).store := by
  unfold dbSet
  exact noEmptyStore_evict _ (noEmptyStore_storeSet db.store k _ rfl h)

theorem noEmpty_dbDel (db : DB) (k : String) (h : noEmptyStore db.store) :
    noEmptyStore (dbDel db k).store :=
  noEmptyStore_eraseP db.store _ h

theorem noEmpty_dbLpush (hf : String → Nat) (db : DB) (k v : String)
    (h : noEmptyStore db.store) : noEmptyStore (dbLpush hf db k v).1.store := by
  unfold dbLpush
  split
  · exact noEmptyStore_evict _ (noEmptyStore_storeSet db.store k _ rfl h)
  · exact h
  · exact noEmptyStore_evict _ (noEmptyStore_storeSet db.store k _ rfl h)

theorem noEmpty_dbRpush (hf : String → Nat) (db : DB) (k v : String)
    (h : noEmptyStore db.store) : noEmptyStore (dbRpush hf db k v).1.store := by
  unfold dbRpush
  split
  · next l heq =>
    exact noEmptyStore_evict _
      (noEmptyStore_storeSet db.store k _ (valueNonempty_list _ (by simp)) h)
  · exact h
  · exact noEmptyStore_evict _ (noEmptyStore_storeSet db.store k _ rfl h)

theorem noEmpty_dbLpop (db : DB) (k : String) (h : noEmptyStore db.store) :
    noEmptyStore (dbLpop db k).1.store := by
  unfold dbLpop
  split
  · exact h
  · dsimp only
    split
    · exact noEmptyStore_eraseP db.store _ h
    · next hne =>
      exact noEmptyStore_storeSet db.store k _
        (valueNonempty_list _ (by
          intro he
          exact hne (by rw [he]; rfl))) h
  · exact h

theorem noEmpty_dbRpop (db : DB) (k : String) (h : noEmptyStore db.store) :
    noEmptyStore (dbRpop db k).1.store := by
  unfold dbRpop
  split
  · exact h
  · dsimp only
    split
    · exact noEmptyStore_eraseP db.store _ h
    · next hne =>
      exact noEmptyStore_storeSet db.store k _
        (valueNonempty_list _ (by
          intro he
          exact hne (by rw [he]; rfl))) h
  · exact h

theorem noEmpty_dbSadd (hf : String → Nat) (db : DB) (k v : String)
    (h : noEmptyStore db.store) : noEmptyStore (dbSadd hf db k v).1.store := by
  unfold dbSadd
  split
  · next s heq =>
    apply noEmptyStore_evict
    apply noEmptyStore_storeSet db.store k _ _ h
    by_cases hc : s.contains v
    · simp only [hc, if_true]
      exact h (k, Value.set s) (mem_of_storeLookup_eq_some db.store k _ heq)
    · simp only [hc, if_false]
      exact valueNonempty_set _ (by simp)
  · exact h
  · exact noEmptyStore_evict _ (noEmptyStore_storeSet db.store k _ rfl h)

theorem noEmpty_dbSrem (db : DB) (k v : String) (h : noEmptyStore db.store) :
    noEmptyStore (dbSrem db k v).1.store := by
  unfold dbSrem
  split
  · exact h
  · dsimp only
    split
    · exact noEmptyStore_eraseP db.store _ h
    · next hne =>
      apply noEmptyStore_storeSet db.store k _ _ h
      apply valueNonempty_set
      intro he
      exact hne (by rw [he]; rfl)
  · exact h

theorem noEmpty_dbHset (hf : String → Nat) (db : DB) (k f v : String)
    (h : noEmptyStore db.store) :
    noEmptyStore (dbHset hf db k f v).1.store := by
  unfold dbHset
  split
  · exact noEmptyStore_evict _ (noEmptyStore_storeSet db.store k _ rfl h)
  · exact h
  · exact noEmptyStore_evict _ (noEmptyStore_storeSet db.store k _ rfl h)

theorem noEmpty_dbHdel (db : DB) (k f : String) (h : noEmptyStore db.store) :
    noEmptyStore (dbHdel db k f).1.store := by
  unfold dbHdel
  split
  · exact h
  · dsimp only
    split
    · exact noEmptyStore_eraseP db.store _ h
    · next hne =>
      apply noEmptyStore_storeSet db.store k _ _ h
      apply valueNonempty_hash
      intro he
      exact hne (by rw [he]; rfl)
  · exact h

theorem wrapBulk_fst (p : DB × String) : (wrapBulk p).1 = p.1 := by
  unfold wrapBulk
  split
  · rfl
  · split <;> rfl

theorem wrapInt_fst (p : DB × String) : (wrapInt p).1 = p.1 := by
  unfold wrapInt
  split <;> rfl

theorem wrapRaw_fst (p : DB × String) : (wrapRaw p).1 = p.1 := by
  unfold wrapRaw
  split <;> rfl

theorem store_dbGet (hf : String → Nat) (db : DB) (k : String) :
    (dbGet hf db k).1.store = db.store := by
  unfold dbGet
  split
  · split
    · rfl
    · split <;> rfl
  · rfl

theorem store_dbLindex (db : DB) (k : String) (i : Int) :
    (dbLindex db k i).1.store = db.store := by
  unfold dbLindex
  split <;> rfl

theorem store_dbLlen (db : DB) (k : String) :
    (dbLlen db k).1.store = db.store := by
  unfold dbLlen
  split <;> rfl

theorem store_dbLrange (db : DB) (k : String) (s e : Int) :
    (dbLrange db k s e).1.store = db.store := by
  unfold dbLrange
  split <;> rfl

theorem store_dbSismember (db : DB) (k v : String) :
    (dbSismember db k v).1.store = db.store := by
  unfold dbSismember
  split <;> rfl

theorem store_dbScard (db : DB) (k : String) :
    (dbScard db k).1.store = db.store := by
  unfold dbScard
  split <;> rfl

theorem store_dbSmembers (db : DB) (k : String) :
    (dbSmembers db k).1.store = db.store := by
  unfold dbSmembers
  split <;> rfl

theorem store_dbHget (db : DB) (k f : String) :
    (dbHget db k f).1.store = db.store := by
  unfold dbHget
  split <;> rfl

theorem store_dbHexists (db : DB) (k f : String) :
    (dbHexists db k f).1.store = db.store := by
  unfold dbHexists
  split <;> rfl

theorem store_dbHlen (db : DB) (k : String) :
    (dbHlen db k).1.store = db.store := by
  unfold dbHlen
  split <;> rfl

theorem store_dbHkeys (db : DB) (k : String) :
    (dbHkeys db k).1.store = db.store := by
  unfold dbHkeys
  split <;> rfl

theorem store_dbHvals (db : DB) (k : String) :
    (dbHvals db k).1.store = db.store := by
  unfold dbHvals
  split <;> rfl

theorem store_dbHgetall (db : DB) (k : String) :
    (dbHgetall db k).1.store = db.store := by
  unfold dbHgetall
  split <;> rfl



theorem noEmpty_armSet (hf : String → Nat) (db : DB) (cmd : String)
    (parts : List String) (h : noEmptyStore db.store) :
    noEmptyStore (armSet hf db cmd parts).1.store := by
  unfold armSet
  repeat' split
  all_goals
    try simp only [wrapInt_fst, wrapBulk_fst, wrapRaw_fst, store_dbGet,
      store_dbLindex, store_dbLlen, store_dbLrange, store_dbSismember,
      store_dbScard, store_dbSmembers, store_dbHget, store_dbHexists,
      store_dbHlen, store_dbHkeys, store_dbHvals, store_dbHgetall]
  all_goals
    first
      | exact h
      | exact noEmpty_dbSet hf db _ _ h

theorem noEmpty_armGet (hf : String → Nat) (db : DB) (cmd : String)
    (parts : List String) (h : noEmptyStore db.store) :
    noEmptyStore (armGet hf db cmd parts).1.store := by
  unfold armGet
  repeat' split
  all_goals
    try simp only [wrapInt_fst, wrapBulk_fst, wrapRaw_fst, store_dbGet,
      store_dbLindex, store_dbLlen, store_dbLrange, store_dbSismember,
      store_dbScard, store_dbSmembers, store_dbHget, store_dbHexists,
      store_dbHlen, store_dbHkeys, store_dbHvals, store_dbHgetall]
  all_goals
    first
      | exact h
      | exact h

theorem noEmpty_armDel (db : DB) (cmd : String)
    (parts : List String) (h : noEmptyStore db.store) :
    noEmptyStore (armDel db cmd parts).1.store := by
  unfold armDel
  repeat' split
  all_goals
    try simp only [wrapInt_fst, wrapBulk_fst, wrapRaw_fst, store_dbGet,
      store_dbLindex, store_dbLlen, store_dbLrange, store_dbSismember,
      store_dbScard, store_dbSmembers, store_dbHget, store_dbHexists,
      store_dbHlen, store_dbHkeys, store_dbHvals, store_dbHgetall]
  all_goals
    first
      | exact h
      | exact noEmpty_dbDel db _ h

theorem noEmpty_armType (hf : String → Nat) (db : DB) (cmd : String)
    (parts : List String) (h : noEmptyStore db.store) :
    noEmptyStore (armType hf db cmd parts).1.store := by
  unfold armType
  repeat' split
  all_goals
    try simp only [wrapInt_fst, wrapBulk_fst, wrapRaw_fst, store_dbGet,
      store_dbLindex, store_dbLlen, store_dbLrange, store_dbSismember,
      store_dbScard, store_dbSmembers, store_dbHget, store_dbHexists,
      store_dbHlen, store_dbHkeys, store_dbHvals, store_dbHgetall]
  all_goals
    first
      | exact h
      | exact h

theorem noEmpty_armLpush (hf : String → Nat) (db : DB) (cmd : String)
    (parts : List String) (h : noEmptyStore db.store) :
    noEmptyStore (armLpush hf db cmd parts).1.store := by
  unfold armLpush
  repeat' split
  all_goals
    try simp only [wrapInt_fst, wrapBulk_fst, wrapRaw_fst, store_dbGet,
      store_dbLindex, store_dbLlen, store_dbLrange, store_dbSismember,
      store_dbScard, store_dbSmembers, store_dbHget, store_dbHexists,
      store_dbHlen, store_dbHkeys, store_dbHvals, store_dbHgetall]
  all_goals
    first
      | exact h
      | exact noEmpty_dbLpush hf db _ _ h

theorem noEmpty_armRpush (hf : String → Nat) (db : DB) (cmd : String)
    (parts : List String) (h : noEmptyStore db.store) :
    noEmptyStore (armRpush hf db cmd parts).1.store := by
  unfold armRpush
  repeat' split
  all_goals
    try simp only [wrapInt_fst, wrapBulk_fst, wrapRaw_fst, store_dbGet,
      store_dbLindex, store_dbLlen, store_dbLrange, store_dbSismember,
      store_dbScard, store_dbSmembers, store_dbHget, store_dbHexists,
      store_dbHlen, store_dbHkeys, store_dbHvals, store_dbHgetall]
  all_goals
    first
      | exact h
      | exact noEmpty_dbRpush hf db _ _ h

theorem noEmpty_armLpop (db : DB) (cmd : String)
    (parts : List String) (h : noEmptyStore db.store) :
    noEmptyStore (armLpop db cmd parts).1.store := by
  unfold armLpop
  repeat' split
  all_goals
    try simp only [wrapInt_fst, wrapBulk_fst, wrapRaw_fst, store_dbGet,
      store_dbLindex, store_dbLlen, store_dbLrange, store_dbSismember,
      store_dbScard, store_dbSmembers, store_dbHget, store_dbHexists,
      store_dbHlen, store_dbHkeys, store_dbHvals, store_dbHgetall]
  all_goals
    first
      | exact h
      | exact noEmpty_dbLpop db _ h

theorem noEmpty_armRpop (db : DB) (cmd : String)
    (parts : List String) (h : noEmptyStore db.store) :
    noEmptyStore (armRpop db cmd parts).1.store := by
  unfold armRpop
  repeat' split
  all_goals
    try simp only [wrapInt_fst, wrapBulk_fst, wrapRaw_fst, store_dbGet,
      store_dbLindex, store_dbLlen, store_dbLrange, store_dbSismember,
      store_dbScard, store_dbSmembers, store_dbHget, store_dbHexists,
      store_dbHlen, store_dbHkeys, store_dbHvals, store_dbHgetall]
  all_goals
    first
      | exact h
      | exact noEmpty_dbRpop db _ h

theorem noEmpty_armLindex (db : DB) (cmd : String)
    (parts : List String) (h : noEmptyStore db.store) :
    noEmptyStore (armLindex db cmd parts).1.store := by
  unfold armLindex
  repeat' split
  all_goals
    try simp only [wrapInt_fst, wrapBulk_fst, wrapRaw_fst, store_dbGet,
      store_dbLindex, store_dbLlen, store_dbLrange, store_dbSismember,
      store_dbScard, store_dbSmembers, store_dbHget, store_dbHexists,
      store_dbHlen, store_dbHkeys, store_dbHvals, store_dbHgetall]
  all_goals
    first
      | exact h
      | exact h

theorem noEmpty_armLlen (db : DB) (cmd : String)
    (parts : List String) (h : noEmptyStore db.store) :
    noEmptyStore (armLlen db cmd parts).1.store := by
  unfold armLlen
  repeat' split
  all_goals
    try simp only [wrapInt_fst, wrapBulk_fst, wrapRaw_fst, store_dbGet,
      store_dbLindex, store_dbLlen, store_dbLrange, store_dbSismember,
      store_dbScard, store_dbSmembers, store_dbHget, store_dbHexists,
      store_dbHlen, store_dbHkeys, store_dbHvals, store_dbHgetall]
  all_goals
    first
      | exact h
      | exact h

theorem noEmpty_armLrange (db : DB) (cmd : String)
    (parts : List String) (h : noEmptyStore db.store) :
    noEmptyStore (armLrange db cmd parts).1.store := by
  unfold armLrange
  repeat' split
  all_goals
    try simp only [wrapInt_fst, wrapBulk_fst, wrapRaw_fst, store_dbGet,
      store_dbLindex, store_dbLlen, store_dbLrange, store_dbSismember,
      store_dbScard, store_dbSmembers, store_dbHget, store_dbHexists,
      store_dbHlen, store_dbHkeys, store_dbHvals, store_dbHgetall]
  all_goals
    first
      | exact h
      | exact h

theorem noEmpty_armSadd (hf : String → Nat) (db : DB) (cmd : String)
    (parts : List String) (h : noEmptyStore db.store) :
    noEmptyStore (armSadd hf db cmd parts).1.store := by
  unfold armSadd
  repeat' split
  all_goals
    try simp only [wrapInt_fst, wrapBulk_fst, wrapRaw_fst, store_dbGet,
      store_dbLindex, store_dbLlen, store_dbLrange, store_dbSismember,
      store_dbScard, store_dbSmembers, store_dbHget, store_dbHexists,
      store_dbHlen, store_dbHkeys, store_dbHvals, store_dbHgetall]
  all_goals
    first
      | exact h
      | exact noEmpty_dbSadd hf db _ _ h

theorem noEmpty_armSismember (db : DB) (cmd : String)
    (parts : List String) (h : noEmptyStore db.store) :
    noEmptyStore (armSismember db cmd parts).1.store := by
  unfold armSismember
  repeat' split
  all_goals
    try simp only [wrapInt_fst, wrapBulk_fst, wrapRaw_fst, store_dbGet,
      store_dbLindex, store_dbLlen, store_dbLrange, store_dbSismember,
      store_dbScard, store_dbSmembers, store_dbHget, store_dbHexists,
      store_dbHlen, store_dbHkeys, store_dbHvals, store_dbHgetall]
  all_goals
    first
      | exact h
      | exact h

theorem noEmpty_armSrem (db : DB) (cmd : String)
    (parts : List String) (h : noEmptyStore db.store) :
    noEmptyStore (armSrem db cmd parts).1.store := by
  unfold armSrem
  repeat' split
  all_goals
    try simp only [wrapInt_fst, wrapBulk_fst, wrapRaw_fst, store_dbGet,
      store_dbLindex, store_dbLlen, store_dbLrange, store_dbSismember,
      store_dbScard, store_dbSmembers, store_dbHget, store_dbHexists,
      store_dbHlen, store_dbHkeys, store_dbHvals, store_dbHgetall]
  all_goals
    first
      | exact h
      | exact noEmpty_dbSrem db _ _ h

theorem noEmpty_armScard (db : DB) (cmd : String)
    (parts : List String) (h : noEmptyStore db.store) :
    noEmptyStore (armScard db cmd parts).1.store := by
  unfold armScard
  repeat' split
  all_goals
    try simp only [wrapInt_fst, wrapBulk_fst, wrapRaw_fst, store_dbGet,
      store_dbLindex, store_dbLlen, store_dbLrange, store_dbSismember,
      store_dbScard, store_dbSmembers, store_dbHget, store_dbHexists,
      store_dbHlen, store_dbHkeys, store_dbHvals, store_dbHgetall]
  all_goals
    first
      | exact h
      | exact h

theorem noEmpty_armSmembers (db : DB) (cmd : String)
    (parts : List String) (h : noEmptyStore db.store) :
    noEmptyStore (armSmembers db cmd parts).1.store := by
  unfold armSmembers
  repeat' split
  all_goals
    try simp only [wrapInt_fst, wrapBulk_fst, wrapRaw_fst, store_dbGet,
      store_dbLindex, store_dbLlen, store_dbLrange, store_dbSismember,
      store_dbScard, store_dbSmembers, store_dbHget, store_dbHexists,
      store_dbHlen, store_dbHkeys, store_dbHvals, store_dbHgetall]
  all_goals
    first
      | exact h
      | exact h

theorem noEmpty_armHset (hf : String → Nat) (db : DB) (cmd : String)
    (parts : List String) (h : noEmptyStore db.store) :
    noEmptyStore (armHset hf db cmd parts).1.store := by
  unfold armHset
  repeat' split
  all_goals
    try simp only [wrapInt_fst, wrapBulk_fst, wrapRaw_fst, store_dbGet,
      store_dbLindex, store_dbLlen, store_dbLrange, store_dbSismember,
      store_dbScard, store_dbSmembers, store_dbHget, store_dbHexists,
      store_dbHlen, store_dbHkeys, store_dbHvals, store_dbHgetall]
  all_goals
    first
      | exact h
      | exact noEmpty_dbHset hf db _ _ _ h

theorem noEmpty_armHget (db : DB) (cmd : String)
    (parts : List String) (h : noEmptyStore db.store) :
    noEmptyStore (armHget db cmd parts).1.store := by
  unfold armHget
  repeat' split
  all_goals
    try simp only [wrapInt_fst, wrapBulk_fst, wrapRaw_fst, store_dbGet,
      store_dbLindex, store_dbLlen, store_dbLrange, store_dbSismember,
      store_dbScard, store_dbSmembers, store_dbHget, store_dbHexists,
      store_dbHlen, store_dbHkeys, store_dbHvals, store_dbHgetall]
  all_goals
    first
      | exact h
      | exact h

theorem noEmpty_armHexists (db : DB) (cmd : String)
    (parts : List String) (h : noEmptyStore db.store) :
    noEmptyStore (armHexists db cmd parts).1.store := by
  unfold armHexists
  repeat' split
  all_goals
    try simp only [wrapInt_fst, wrapBulk_fst, wrapRaw_fst, store_dbGet,
      store_dbLindex, store_dbLlen, store_dbLrange, store_dbSismember,
      store_dbScard, store_dbSmembers, store_dbHget, store_dbHexists,
      store_dbHlen, store_dbHkeys, store_dbHvals, store_dbHgetall]
  all_goals
    first
      | exact h
      | exact h

theorem noEmpty_armHdel (db : DB) (cmd : String)
    (parts : List String) (h : noEmptyStore db.store) :
    noEmptyStore (armHdel db cmd parts).1.store := by
  unfold armHdel
  repeat' split
  all_goals
    try simp only [wrapInt_fst, wrapBulk_fst, wrapRaw_fst, store_dbGet,
      store_dbLindex, store_dbLlen, store_dbLrange, store_dbSismember,
      store_dbScard, store_dbSmembers, store_dbHget, store_dbHexists,
      store_dbHlen, store_dbHkeys, store_dbHvals, store_dbHgetall]
  all_goals
    first
      | exact h
      | exact noEmpty_dbHdel db _ _ h

theorem noEmpty_armHlen (db : DB) (cmd : String)
    (parts : List String) (h : noEmptyStore db.store) :
    noEmptyStore (armHlen db cmd parts).1.store := by
  unfold armHlen
  repeat' split
  all_goals
    try simp only [wrapInt_fst, wrapBulk_fst, wrapRaw_fst, store_dbGet,
      store_dbLindex, store_dbLlen, store_dbLrange, store_dbSismember,
      store_dbScard, store_dbSmembers, store_dbHget, store_dbHexists,
      store_dbHlen, store_dbHkeys, store_dbHvals, store_dbHgetall]
  all_goals
    first
      | exact h
      | exact h

theorem noEmpty_armHkeys (db : DB) (cmd : String)
    (parts : List String) (h : noEmptyStore db.store) :
    noEmptyStore (armHkeys db cmd parts).1.store := by
  unfold armHkeys
  repeat' split
  all_goals
    try simp only [wrapInt_fst, wrapBulk_fst, wrapRaw_fst, store_dbGet,
      store_dbLindex, store_dbLlen, store_dbLrange, store_dbSismember,
      store_dbScard, store_dbSmembers, store_dbHget, store_dbHexists,
      store_dbHlen, store_dbHkeys, store_dbHvals, store_dbHgetall]
  all_goals
    first
      | exact h
      | exact h

theorem noEmpty_armHvals (db : DB) (cmd : String)
    (parts : List String) (h : noEmptyStore db.store) :
    noEmptyStore (armHvals db cmd parts).1.store := by
  unfold armHvals
  repeat' split
  all_goals
    try simp only [wrapInt_fst, wrapBulk_fst, wrapRaw_fst, store_dbGet,
      store_dbLindex, store_dbLlen, store_dbLrange, store_dbSismember,
      store_dbScard, store_dbSmembers, store_dbHget, store_dbHexists,
      store_dbHlen, store_dbHkeys, store_dbHvals, store_dbHgetall]
  all_goals
    first
      | exact h
      | exact h

theorem noEmpty_armHgetall (db : DB) (cmd : String)
    (parts : List String) (h : noEmptyStore db.store) :
    noEmptyStore (armHgetall db cmd parts).1.store := by
  unfold armHgetall
  repeat' split
  all_goals
    try simp only [wrapInt_fst, wrapBulk_fst, wrapRaw_fst, store_dbGet,
      store_dbLindex, store_dbLlen, store_dbLrange, store_dbSismember,
      store_dbScard, store_dbSmembers, store_dbHget, store_dbHexists,
      store_dbHlen, store_dbHkeys, store_dbHvals, store_dbHgetall]
  all_goals
    first
      | exact h
      | exact h

theorem noEmpty_dispatch (hf : String → Nat) (db : DB) (cmd : String)
    (parts : List String) (h : noEmptyStore db.store) :
    noEmptyStore (dispatch hf db cmd parts).1.store := by
  suffices hsuf : ∀ res : DB × String,
      dispatch hf db cmd parts = res → noEmptyStore res.1.store by
    exact hsuf _ rfl
  intro res hres
  rw [dispatch.eq_def] at hres
  by_cases hb1 : (cmd == "set") = true
  · rw [if_pos hb1] at hres
    rw [← hres]
    exact noEmpty_armSet hf db _ _ h
  · rw [if_neg hb1] at hres
    by_cases hb2 : (cmd == "get") = true
    · rw [if_pos hb2] at hres
      rw [← hres]
      exact noEmpty_armGet hf db _ _ h
    · rw [if_neg hb2] at hres
      by_cases hb3 : (cmd == "del") = true
      · rw [if_pos hb3] at hres
        rw [← hres]
        exact noEmpty_armDel db _ _ h
      · rw [if_neg hb3] at hres
        by_cases hb4 : (cmd == "type") = true
        · rw [if_pos hb4] at hres
          rw [← hres]
          exact noEmpty_armType hf db _ _ h
        · rw [if_neg hb4] at hres
          by_cases hb5 : (cmd == "lpush") = true
          · rw [if_pos hb5] at hres
            rw [← hres]
            exact noEmpty_armLpush hf db _ _ h
          · rw [if_neg hb5] at hres
            by_cases hb6 : (cmd == "rpush") = true
            · rw [if_pos hb6] at hres
              rw [← hres]
              exact noEmpty_armRpush hf db _ _ h
            · rw [if_neg hb6] at hres
              by_cases hb7 : (cmd == "lpop") = true
              · rw [if_pos hb7] at hres
                rw [← hres]
                exact noEmpty_armLpop db _ _ h
              · rw [if_neg hb7] at hres
                by_cases hb8 : (cmd == "rpop") = true
                · rw [if_pos hb8] at hres
                  rw [← hres]
                  exact noEmpty_armRpop db _ _ h
                · rw [if_neg hb8] at hres
                  by_cases hb9 : (cmd == "lindex") = true
                  · rw [if_pos hb9] at hres
                    rw [← hres]
                    exact noEmpty_armLindex db _ _ h
                  · rw [if_neg hb9] at hres
                    by_cases hb10 : (cmd == "llen") = true
                    · rw [if_pos hb10] at hres
                      rw [← hres]
                      exact noEmpty_armLlen db _ _ h
                    · rw [if_neg hb10] at hres
                      by_cases hb11 : (cmd == "lrange") = true
                      · rw [if_pos hb11] at hres
                        rw [← hres]
                        exact noEmpty_armLrange db _ _ h
                      · rw [if_neg hb11] at hres
                        by_cases hb12 : (cmd == "sadd") = true
                        · rw [if_pos hb12] at hres
                          rw [← hres]
                          exact noEmpty_armSadd hf db _ _ h
                        · rw [if_neg hb12] at hres
                          by_cases hb13 : (cmd == "sismember") = true
                          · rw [if_pos hb13] at hres
                            rw [← hres]
                            exact noEmpty_armSismember db _ _ h
                          · rw [if_neg hb13] at hres
                            by_cases hb14 : (cmd == "srem") = true
                            · rw [if_pos hb14] at hres
                              rw [← hres]
                              exact noEmpty_armSrem db _ _ h
                            · rw [if_neg hb14] at hres
                              by_cases hb15 : (cmd == "scard") = true
                              · rw [if_pos hb15] at hres
                                rw [← hres]
                                exact noEmpty_armScard db _ _ h
                              · rw [if_neg hb15] at hres
                                by_cases hb16 : (cmd == "smembers") = true
                                · rw [if_pos hb16] at hres
                                  rw [← hres]
                                  exact noEmpty_armSmembers db _ _ h
                                · rw [if_neg hb16] at hres
                                  by_cases hb17 : (cmd == "hset") = true
                                  · rw [if_pos hb17] at hres
                                    rw [← hres]
                                    exact noEmpty_armHset hf db _ _ h
                                  · rw [if_neg hb17] at hres
                                    by_cases hb18 : (cmd == "hget") = true
                                    · rw [if_pos hb18] at hres
                                      rw [← hres]
                                      exact noEmpty_armHget db _ _ h
                                    · rw [if_neg hb18] at hres
                                      by_cases hb19 : (cmd == "hexists") = true
                                      · rw [if_pos hb19] at hres
                                        rw [← hres]
                                        exact noEmpty_armHexists db _ _ h
                                      · rw [if_neg hb19] at hres
                                        by_cases hb20 : (cmd == "hdel") = true
                                        · rw [if_pos hb20] at hres
                                          rw [← hres]
                                          exact noEmpty_armHdel db _ _ h
                                        · rw [if_neg hb20] at hres
                                          by_cases hb21 : (cmd == "hlen") = true
                                          · rw [if_pos hb21] at hres
                                            rw [← hres]
                                            exact noEmpty_armHlen db _ _ h
                                          · rw [if_neg hb21] at hres
                                            by_cases hb22 : (cmd == "hkeys") = true
                                            · rw [if_pos hb22] at hres
                                              rw [← hres]
                                              exact noEmpty_armHkeys db _ _ h
                                            · rw [if_neg hb22] at hres
                                              by_cases hb23 : (cmd == "hvals") = true
                                              · rw [if_pos hb23] at hres
                                                rw [← hres]
                                                exact noEmpty_armHvals db _ _ h
                                              · rw [if_neg hb23] at hres
                                                by_cases hb24 : (cmd == "hgetall") = true
                                                · rw [if_pos hb24] at hres
                                                  rw [← hres]
                                                  exact noEmpty_armHgetall db _ _ h
                                                · rw [if_neg hb24] at hres
                                                  by_cases hb25 : (cmd == "ping") = true
                                                  · rw [if_pos hb25] at hres
                                                    rw [← hres]
                                                    exact h
                                                  · rw [if_neg hb25] at hres
                                                    rw [← hres]
                                                    exact h

theorem noEmpty_execTokens (hf : String → Nat) (db : DB)
    (h : noEmptyStore db.store) :
    ∀ parts, noEmptyStore (execTokens hf db parts).1.store := by
  intro parts
  cases parts with
  | nil => exact h
  | cons c rest =>
    show noEmptyStore (dispatch hf db (cppToLower c) (c :: rest)).1.store
    exact noEmpty_dispatch hf db (cppToLower c) (c :: rest) h

theorem lookup_storeErase_self (s : List (String × Value)) (k : String)
    (hnd : (s.map Prod.fst).Nodup) :
    storeLookup (storeErase s k) k = none := by
  induction s with
  | nil => rfl
  | cons p t ih =>
    cases p with
    | mk a b =>
      simp only [List.map_cons, List.nodup_cons] at hnd
      by_cases hak : a = k
      · unfold storeErase
        rw [List.eraseP_cons_of_pos (by simp [hak])]
        subst hak
        unfold storeLookup
        rw [List.lookup_eq_none_iff]
        intro q hq
        have : q.1 ∈ t.map Prod.fst := List.mem_map_of_mem Prod.fst hq
        have hne : q.1 ≠ a := by
          intro he
          exact hnd.1 (he ▸ this)
        simpa using Ne.symm hne
      · unfold storeErase
        rw [List.eraseP_cons_of_neg (by simp [hak])]
        unfold storeLookup
        rw [List.lookup_cons]
        have : (k == a) = false := by simp [Ne.symm hak]
        simp only [this]
        exact ih hnd.2

theorem not_mem_cacheRemove_cacheAccess (k : String) (c : List String)
    (h : c.Nodup) : k ∉ cacheRemove k (cacheAccess k c) := by
  have hk : k ∉ c.erase k := h.not_mem_erase
  simp only [cacheAccess, cacheRemove]
  split
  · cases he : c.erase k with
    | nil => simp
    | cons a t =>
      rw [List.dropLast_cons₂, List.erase_cons_head]
      rw [he] at hk
      exact fun hm => hk ((List.dropLast_sublist (a :: t)).subset hm)
  · rw [List.erase_cons_head]
    exact hk

theorem dbTypeStr_none (hf : String → Nat) (db : DB) (k : String)
    (h : storeLookup db.store k = none) : dbTypeStr hf db k = "none" := by
  unfold dbTypeStr
  rw [h]
  split <;> rfl

theorem dbLpop_eq_of_list (db : DB) (k : String) (l : List String)
    (hw : storeLookup db.store k = some (Value.list l)) :
    dbLpop db k =
      (if l.tail.length = 0 then
        (⟨storeErase db.store k, cacheRemove k (cacheAccess k db.cache),
          db.bloom⟩,
          if l.headD "" = "" then "NULL" else l.headD "")
      else
        (⟨storeSet db.store k (Value.list l.tail), cacheAccess k db.cache,
          db.bloom⟩,
          if l.headD "" = "" then "NULL" else l.headD "")) := by
  unfold dbLpop
  rw [hw]

theorem dbRpop_eq_of_list (db : DB) (k : String) (l : List String)
    (hw : storeLookup db.store k = some (Value.list l)) :
    dbRpop db k =
      (if l.dropLast.length = 0 then
        (⟨storeErase db.store k, cacheRemove k (cacheAccess k db.cache),
          db.bloom⟩,
          if l.getLast?.getD "" = "" then "NULL" else l.getLast?.getD "")
      else
        (⟨storeSet db.store k (Value.list l.dropLast), cacheAccess k db.cache,
          db.bloom⟩,
          if l.getLast?.getD "" = "" then "NULL" else l.getLast?.getD "")) := by
  unfold dbRpop
  rw [hw]

theorem dbSrem_eq_of_set (db : DB) (k v : String) (s : List String)
    (hw : storeLookup db.store k = some (Value.set s)) :
    dbSrem db k v =
      (if (s.erase v).length = 0 then
        (⟨storeErase db.store k, cacheRemove k (cacheAccess k db.cache),
          db.bloom⟩,
          if s.contains v then "1" else "0")
      else
        (⟨storeSet db.store k (Value.set (s.erase v)), cacheAccess k db.cache,
          db.bloom⟩,
          if s.contains v then "1" else "0")) := by
  unfold dbSrem
  rw [hw]

theorem dbHdel_eq_of_hash (db : DB) (k f : String)
    (fs : List (String × String))
    (hw : storeLookup db.store k = some (Value.hash fs)) :
    dbHdel db k f =
      (if (fs.eraseP (fun p => p.1 == f)).length = 0 then
        (⟨storeErase db.store k, cacheRemove k (cacheAccess k db.cache),
          db.bloom⟩,
          if (List.lookup f fs).isSome then "1" else "0")
      else
        (⟨storeSet db.store k (Value.hash (fs.eraseP (fun p => p.1 == f))),
          cacheAccess k db.cache, db.bloom⟩,
          if (List.lookup f fs).isSome then "1" else "0")) := by
  unfold dbHdel
  rw [hw]

/-- C6: collection keys disappear exactly when their last element is removed.
No lpush/rpush/sadd/hset or other operation ever leaves an empty collection
in the store, and lpop/rpop/srem/hdel erase the key (store entry, cache slot,
and subsequent TYPE reports none) precisely when the collection becomes
empty. -/
theorem c6_delete_on_empty (hf : String → Nat) (db : DB)
    (h1 : noEmptyStore db.store) (h2 : db.cache.Nodup)
    (h3 : (db.store.map Prod.fst).Nodup) :
    (∀ parts, noEmptyStore (execTokens hf db parts).1.store) ∧
    (∀ k l, storeLookup db.store k = some (Value.list l) →
      ((storeLookup (dbLpop db k).1.store k = none ↔ l.tail = []) ∧
        (l.tail = [] → ¬ k ∈ (dbLpop db k).1.cache ∧
          dbTypeStr hf (dbLpop db k).1 k = "none"))) ∧
    (∀ k l, storeLookup db.store k = some (Value.list l) →
      ((storeLookup (dbRpop db k).1.store k = none ↔ l.dropLast = []) ∧
        (l.dropLast = [] → ¬ k ∈ (dbRpop db k).1.cache ∧
          dbTypeStr hf (dbRpop db k).1 k = "none"))) ∧
    (∀ k v s, storeLookup db.store k = some (Value.set s) →
      ((storeLookup (dbSrem db k v).1.store k = none ↔ s.erase v = []) ∧
        (s.erase v = [] → ¬ k ∈ (dbSrem db k v).1.cache ∧
          dbTypeStr hf (dbSrem db k v).1 k = "none"))) ∧
    (∀ k f fs, storeLookup db.store k = some (Value.hash fs) →
      ((storeLookup (dbHdel db k f).1.store k = none ↔
          fs.eraseP (fun p => p.1 == f) = []) ∧
        (fs.eraseP (fun p => p.1 == f) = [] →
          ¬ k ∈ (dbHdel db k f).1.cache ∧
          dbTypeStr hf (dbHdel db k f).1 k = "none"))) := by
  refine ⟨noEmpty_execTokens hf db h1, ?_, ?_, ?_, ?_⟩
  · intro k l hw
    rw [dbLpop_eq_of_list db k l hw]
    by_cases hl : l.tail = []
    · rw [if_pos (by rw [hl]; rfl)]
      exact ⟨iff_of_true (lookup_storeErase_self db.store k h3) hl,
        fun _ => ⟨not_mem_cacheRemove_cacheAccess k db.cache h2,
          dbTypeStr_none hf _ k (lookup_storeErase_self db.store k h3)⟩⟩
    · rw [if_neg (fun hc => hl (List.length_eq_zero.mp hc))]
      refine ⟨iff_of_false ?_ hl, fun hcontr => absurd hcontr hl⟩
      rw [storeLookup_storeSet_self]
      simp
  · intro k l hw
    rw [dbRpop_eq_of_list db k l hw]
    by_cases hl : l.dropLast = []
    · rw [if_pos (by rw [hl]; rfl)]
      exact ⟨iff_of_true (lookup_storeErase_self db.store k h3) hl,
        fun _ => ⟨not_mem_cacheRemove_cacheAccess k db.cache h2,
          dbTypeStr_none hf _ k (lookup_storeErase_self db.store k h3)⟩⟩
    · rw [if_neg (fun hc => hl (List.length_eq_zero.mp hc))]
      refine ⟨iff_of_false ?_ hl, fun hcontr => absurd hcontr hl⟩
      rw [storeLookup_storeSet_self]
      simp
  · intro k v s hw
    rw [dbSrem_eq_of_set db k v s hw]
    by_cases hl : s.erase v = []
    · rw [if_pos (by rw [hl]; rfl)]
      exact ⟨iff_of_true (lookup_storeErase_self db.store k h3) hl,
        fun _ => ⟨not_mem_cacheRemove_cacheAccess k db.cache h2,
          dbTypeStr_none hf _ k (lookup_storeErase_self db.store k h3)⟩⟩
    · rw [if_neg (fun hc => hl (List.length_eq_zero.mp hc))]
      refine ⟨iff_of_false ?_ hl, fun hcontr => absurd hcontr hl⟩
      rw [storeLookup_storeSet_self]
      simp
  · intro k f fs hw
    rw [dbHdel_eq_of_hash db k f fs hw]
    by_cases hl : fs.eraseP (fun p => p.1 == f) = []
    · rw [if_pos (by rw [hl]; rfl)]
      exact ⟨iff_of_true (lookup_storeErase_self db.store k h3) hl,
        fun _ => ⟨not_mem_cacheRemove_cacheAccess k db.cache h2,
          dbTypeStr_none hf _ k (lookup_storeErase_self db.store k h3)⟩⟩
    · rw [if_neg (fun hc => hl (List.length_eq_zero.mp hc))]
      refine ⟨iff_of_false ?_ hl, fun hcontr => absurd hcontr hl⟩
      rw [storeLookup_storeSet_self]
      simp

/-- Witness for C6 at a concrete database holding a one-element list. -/
theorem c6_witness :
    (storeLookup (dbLpop ⟨[("k", Value.list ["a"])], ["k"], [0]⟩ "k").1.store
        "k" = none ↔ (["a"] : List String).tail = []) ∧
    ((["a"] : List String).tail = [] →
      ¬ "k" ∈ (dbLpop ⟨[("k", Value.list ["a"])], ["k"], [0]⟩ "k").1.cache ∧
      dbTypeStr hf0 (dbLpop ⟨[("k", Value.list ["a"])], ["k"], [0]⟩ "k").1
        "k" = "none") :=
  (c6_delete_on_empty hf0 ⟨[("k", Value.list ["a"])], ["k"], [0]⟩
    (by
      intro p hp
      simp only [List.mem_singleton] at hp
      subst hp
      rfl)
    (by simp) (by simp)).2.1 "k" ["a"] (by rfl)
